import Mathlib

/-!
Verification of the serde_yml YAML codec (deserialization core) against its
natural-language specification.

The development shallowly embeds the Rust source (src/de.rs, src/loader.rs,
src/modules/error.rs, src/libyaml/error.rs) into Lean:

* scalar text is modelled as `List Char` (the source converts the scalar's
  bytes with `str::from_utf8` before all of the classification logic the
  claims concern; every token compared against is ASCII, so byte-wise and
  char-wise comparison agree);
* Rust machine integers are modelled as `Int`/`Nat` with explicit range
  checks mirroring `u64/i64/u128/i128::from_str_radix`;
* `f64` is modelled by the abstract type `FVal` recording only sign and
  finite/inf/nan class, which is all the source inspects (`is_finite`,
  `copysign`); the standard library decimal parser `str::parse::<f64>` is an
  external collaborator and is threaded through as a parameter `g`;
* the visitor-generic functions are specialised to the generic value-building
  visitor (the crate's own `Value::deserialize`, which maps every
  `visit_*` callback to the corresponding `Value` constructor; both
  `visit_str` and `visit_borrowed_str` build a string value from the same
  text).
-/

namespace SerdeYml

/-! ## Basic string helpers (models of `&str` operations used by the source) -/

/-- Model of `str::strip_prefix` for a literal prefix: returns the remainder
when the first list is a prefix of the second. -/
def stripPfx : List Char → List Char → Option (List Char)
  | [], s => some s
  | _ :: _, [] => none
  | p :: ps, c :: cs => if p = c then stripPfx ps cs else none

/-- Model of `s.starts_with(['+', '-'])`. -/
def startsWithSign : List Char → Bool
  | [] => false
  | c :: _ => c = '+' ∨ c = '-'

/-- Model of `char::to_digit(radix)` as used by `from_str_radix`. -/
def charDigit (radix : Nat) (c : Char) : Option Nat :=
  let d : Option Nat :=
    if '0' ≤ c ∧ c ≤ '9' then some (c.toNat - '0'.toNat)
    else if 'a' ≤ c ∧ c ≤ 'z' then some (c.toNat - 'a'.toNat + 10)
    else if 'A' ≤ c ∧ c ≤ 'Z' then some (c.toNat - 'A'.toNat + 10)
    else none
  match d with
  | some v => if v < radix then some v else none
  | none => none

/-- Accumulating digit fold of `from_str_radix`. -/
def digitsToNatAux (radix : Nat) (acc : Nat) : List Char → Option Nat
  | [] => some acc
  | c :: rest =>
    match charDigit radix c with
    | some d => digitsToNatAux radix (acc * radix + d) rest
    | none => none

/-- The digit run of `from_str_radix`: at least one digit, all valid in the
radix. -/
def digitsToNat (radix : Nat) (cs : List Char) : Option Nat :=
  match cs with
  | [] => none
  | _ => digitsToNatAux radix 0 cs

/-- Model of Rust `{u,i}{64,128}::from_str_radix`: an optional single leading
sign (`+` always, `-` only for signed types), then one or more digits in the
radix; the value must fit the width, otherwise (overflow) the parse fails,
exactly as Rust returns `Err(PosOverflow/NegOverflow)`. -/
def fromStrRadix (signed : Bool) (bits : Nat) (s : List Char) (radix : Nat) :
    Option Int :=
  match s with
  | [] => none
  | c :: rest =>
    let signDigits : Bool × List Char :=
      if c = '+' then (false, rest)
      else if c = '-' ∧ signed then (true, rest)
      else (false, s)
    match digitsToNat radix signDigits.2 with
    | none => none
    | some m =>
      if signDigits.1 then
        if (m : Int) ≤ 2 ^ (bits - 1) then some (-(m : Int)) else none
      else if signed then
        if (m : Int) < 2 ^ (bits - 1) then some (m : Int) else none
      else
        if (m : Int) < 2 ^ bits then some (m : Int) else none

/-- `u64::from_str_radix`. -/
def fromU64 (s : List Char) (radix : Nat) : Option Int :=
  fromStrRadix false 64 s radix

/-- `i64::from_str_radix`. -/
def fromI64 (s : List Char) (radix : Nat) : Option Int :=
  fromStrRadix true 64 s radix

/-- `u128::from_str_radix`. -/
def fromU128 (s : List Char) (radix : Nat) : Option Int :=
  fromStrRadix false 128 s radix

/-- `i128::from_str_radix`. -/
def fromI128 (s : List Char) (radix : Nat) : Option Int :=
  fromStrRadix true 128 s radix

/-! ## The ambiguous-scalar classifier (src/de.rs) -/

/-- Source `parse_null` (de.rs): the null tokens. -/
def parse_null (scalar : List Char) : Option Unit :=
  if scalar = "null".toList ∨ scalar = "Null".toList ∨
      scalar = "NULL".toList ∨ scalar = "~".toList then some () else none

/-- Source `parse_bool` (de.rs): the bool tokens. -/
def parse_bool (scalar : List Char) : Option Bool :=
  if scalar = "true".toList ∨ scalar = "True".toList ∨
      scalar = "TRUE".toList then some true
  else if scalar = "false".toList ∨ scalar = "False".toList ∨
      scalar = "FALSE".toList then some false
  else none

/-- Source `digits_but_not_number` (de.rs): after stripping one leading sign,
more than one character, starting with a zero, the rest all ASCII digits
(the YAML 1.2 leading-zero rule). -/
def digits_but_not_number (scalar : List Char) : Bool :=
  let s :=
    match stripPfx ("-".toList) scalar with
    | some r => r
    | none =>
      match stripPfx ("+".toList) scalar with
      | some r => r
      | none => scalar
  decide (1 < s.length) && s.head? == some '0' && (s.drop 1).all Char.isDigit

/-- Source `parse_unsigned_int` (de.rs), generic over `from_str_radix` like
the Rust function. Each radix-prefixed block falls through to the next on
parse failure; a sign immediately after a radix prefix, a sign at the
start of the residual decimal, and the leading-zero pattern each abort with
`None`. -/
def parse_unsigned_int (f : List Char → Nat → Option Int)
    (scalar : List Char) : Option Int :=
  let unpositive :=
    match stripPfx ("+".toList) scalar with
    | some r => r
    | none => scalar
  let step10 : Option Int :=
    if startsWithSign unpositive then none
    else if digits_but_not_number scalar then none
    else f unpositive 10
  let step0b : Option Int :=
    match stripPfx ("0b".toList) unpositive with
    | some rest =>
      if startsWithSign rest then none
      else
        match f rest 2 with
        | some i => some i
        | none => step10
    | none => step10
  let step0o : Option Int :=
    match stripPfx ("0o".toList) unpositive with
    | some rest =>
      if startsWithSign rest then none
      else
        match f rest 8 with
        | some i => some i
        | none => step0b
    | none => step0b
  match stripPfx ("0x".toList) unpositive with
  | some rest =>
    if startsWithSign rest then none
    else
      match f rest 16 with
      | some i => some i
      | none => step0o
  | none => step0o

/-- Source `parse_negative_int` (de.rs): the `-0x`, `-0o`, `-0b` forms are
reconstructed by prepending a minus to the stripped-prefix digits before
radix parsing; then the leading-zero check; then a plain radix-10 parse of
the whole scalar. -/
def parse_negative_int (f : List Char → Nat → Option Int)
    (scalar : List Char) : Option Int :=
  let step10 : Option Int :=
    if digits_but_not_number scalar then none else f scalar 10
  let step0b : Option Int :=
    match stripPfx ("-0b".toList) scalar with
    | some rest =>
      match f ('-' :: rest) 2 with
      | some i => some i
      | none => step10
    | none => step10
  let step0o : Option Int :=
    match stripPfx ("-0o".toList) scalar with
    | some rest =>
      match f ('-' :: rest) 8 with
      | some i => some i
      | none => step0b
    | none => step0b
  match stripPfx ("-0x".toList) scalar with
  | some rest =>
    match f ('-' :: rest) 16 with
    | some i => some i
    | none => step0o
  | none => step0o

/-! ## The float model -/

/-- Abstract model of `f64`: only the sign bit and the finite/infinite/NaN
class are observed by the source (`is_finite`, `copysign`), so a finite
value keeps an abstract magnitude tag instead of IEEE bits. `neg` is the
sign bit. -/
inductive FVal
  | finite (neg : Bool) (mag : List Char)
  | inf (neg : Bool)
  | nan (neg : Bool)
deriving DecidableEq

/-- `f64::is_finite`. -/
def FVal.isFinite : FVal → Bool
  | .finite _ _ => true
  | _ => false

/-- Source `parse_f64` (de.rs). `g` is the external standard-library decimal
parser `str::parse::<f64>` (an out-of-scope collaborator per the spec);
`f64::NAN.copysign(1.0)` is a NaN with positive sign bit, i.e. `.nan false`.
The `.inf` tokens are matched against the `+`-stripped text, while the
`-.inf` and `.nan` tokens are matched against the original scalar. -/
def parse_f64 (g : List Char → Option FVal) (scalar : List Char) :
    Option FVal :=
  let unpositiveOpt : Option (List Char) :=
    match stripPfx ("+".toList) scalar with
    | some u => if startsWithSign u then none else some u
    | none => some scalar
  match unpositiveOpt with
  | none => none
  | some unpositive =>
    if unpositive = ".inf".toList ∨ unpositive = ".Inf".toList ∨
        unpositive = ".INF".toList then some (.inf false)
    else if scalar = "-.inf".toList ∨ scalar = "-.Inf".toList ∨
        scalar = "-.INF".toList then some (.inf true)
    else if scalar = ".nan".toList ∨ scalar = ".NaN".toList ∨
        scalar = ".NAN".toList then some (.nan false)
    else
      match g unpositive with
      | some fl => if fl.isFinite then some fl else none
      | none => none

/-! ## The generic value model and the scalar visitors -/

/-- The value built by the generic (any-shape) visitor: each `visit_*`
callback of the crate's `Value` deserializer maps to the corresponding
constructor. `visit_str` and `visit_borrowed_str` both build `str` from the
same text; `visit_unit` and `visit_none` both build `null`. The integer
constructors record which visit callback (`visit_u64` / `visit_i64` /
`visit_u128` / `visit_i128`) delivered the number. -/
inductive Value
  | null
  | bool (b : Bool)
  | intU64 (n : Int)
  | intI64 (n : Int)
  | intU128 (n : Int)
  | intI128 (n : Int)
  | float (f : FVal)
  | str (s : List Char)
  | seq (items : List Value)
  | map (entries : List (Value × Value))
  | tagged (tag : List Char) (v : Value)

/-- Source `visit_int` (de.rs): the four integer parses tried in turn, the
first success winning; on total failure the visitor is handed back
(modelled as `none`). -/
def visit_int (v : List Char) : Option Value :=
  match parse_unsigned_int fromU64 v with
  | some n => some (.intU64 n)
  | none =>
    match parse_negative_int fromI64 v with
    | some n => some (.intI64 n)
    | none =>
      match parse_unsigned_int fromU128 v with
      | some n => some (.intU128 n)
      | none =>
        match parse_negative_int fromI128 v with
        | some n => some (.intI128 n)
        | none => none

/-- Scalar styles (libyml parser). -/
inductive ScalarStyle
  | plain
  | singleQuoted
  | doubleQuoted
  | literal
  | folded
deriving DecidableEq

/-- Source `parse_borrowed_str` (de.rs): when the scalar's original source
representation is available and, at the style-dependent offset, contains
exactly the UTF-8 value, that borrowed slice is returned. -/
def parse_borrowed_str (utf8_value : List Char) (repr : Option (List Char))
    (style : ScalarStyle) : Option (List Char) :=
  match repr with
  | none => none
  | some borrowed_repr =>
    let offsetOpt : Option Nat :=
      match style with
      | .plain => some 0
      | .singleQuoted => some 1
      | .doubleQuoted => some 1
      | .literal => none
      | .folded => none
    match offsetOpt with
    | none => none
    | some offset =>
      if offset ≤ borrowed_repr.length then
        let expectedEnd := borrowed_repr.length - offset
        if utf8_value.length ≤ expectedEnd then
          let expectedStart := expectedEnd - utf8_value.length
          let borrowed := (borrowed_repr.drop expectedStart).take
            (expectedEnd - expectedStart)
          if borrowed = utf8_value then some borrowed else none
        else none
      else none

/-- The shared string tail of `visit_untagged_scalar` and `visit_scalar`:
`visit_borrowed_str` on the borrowed slice when available, else `visit_str`;
for the generic value visitor both deliver the text as a string value. -/
def strTail (v : List Char) (reprB : Option (List Char))
    (style : ScalarStyle) : Value :=
  match parse_borrowed_str v reprB style with
  | some b => .str b
  | none => .str v

/-- Source `visit_untagged_scalar` (de.rs): the classification precedence for
a plain untagged scalar. -/
def visit_untagged_scalar (g : List Char → Option FVal) (v : List Char)
    (reprB : Option (List Char)) (style : ScalarStyle) : Value :=
  if v.isEmpty || parse_null v == some () then .null
  else
    match parse_bool v with
    | some b => .bool b
    | none =>
      match visit_int v with
      | some c => c
      | none =>
        if !digits_but_not_number v then
          match parse_f64 g v with
          | some fl => .float fl
          | none => strTail v reprB style
        else strTail v reprB style

/-! ## Scalars, tags, and `visit_scalar` -/

/-- `Tag::NULL` (libyml tag.rs). -/
def tagNull : List Char := "tag:yaml.org,2002:null".toList

/-- `Tag::BOOL` (libyml tag.rs). -/
def tagBool : List Char := "tag:yaml.org,2002:bool".toList

/-- `Tag::INT` (libyml tag.rs). -/
def tagInt : List Char := "tag:yaml.org,2002:int".toList

/-- `Tag::FLOAT` (libyml tag.rs). -/
def tagFloat : List Char := "tag:yaml.org,2002:float".toList

/-- A scalar event (libyml parser `Scalar`): anchor (stripped by the loader
before the engine sees it), optional tag bytes, value text (the source
stores bytes and converts with `from_utf8`; the claims all concern textual
scalars, so the value is modelled post-conversion), style, and the optional
borrowed source representation. -/
structure Scalar where
  anchor : Option (List Char)
  tag : Option (List Char)
  value : List Char
  style : ScalarStyle
  repr : Option (List Char)
deriving DecidableEq

/-- Errors of the unified error model (modules/error.rs `ErrorImpl`); the
full taxonomy is introduced below, forward-declared here only as far as the
scalar visitor needs it. A generic serde error (`de::Error::custom`,
`invalid_type`, `invalid_value`, `invalid_length`) is a `message` with no
position; `fix_mark` later backfills the position. -/
structure Mark where
  index : Nat
  line : Nat
  column : Nat
deriving DecidableEq

/-- A resolved position attached to a message error: source mark plus the
rendered structural path. -/
structure ErrPos where
  mark : Mark
  path : List Char
deriving DecidableEq

/-- The yaml error kinds of the external tokenizer (libyaml sys). -/
inductive YKind
  | memoryError
  | readerError
  | scannerError
  | yamlParseError
  | composerError
  | writerError
  | emitterError
  | noError
deriving DecidableEq

/-- A wrapped external-tokenizer error (libyaml error.rs `Error`). -/
structure LibyamlError where
  kind : YKind
  problem : List Char
  problem_offset : Nat
  problem_mark : Mark
  context : Option (List Char)
  context_mark : Mark
deriving DecidableEq

/-- The internal error representation (modules/error.rs `ErrorImpl`). -/
inductive ErrorImpl
  | message (msg : List Char) (pos : Option ErrPos)
  | libyaml (e : LibyamlError)
  | io (msg : List Char)
  | fromUtf8
  | endOfStream
  | moreThanOneDocument
  | recursionLimitExceeded (mark : Mark)
  | repetitionLimitExceeded
  | bytesUnsupported
  | unknownAnchor (mark : Mark)
  | serializeNestedEnum
  | scalarInMerge
  | taggedInMerge
  | scalarInMergeElement
  | sequenceInMergeElement
  | emptyTag
  | failedToParseNumber
  | shared (e : ErrorImpl)
deriving DecidableEq

/-- `de::Error::invalid_value(Unexpected::Str(v), expected)`: a message error
with no position yet. The message text itself is not load-bearing for any
claim; it records the offending value and the expectation. -/
def invalidValueErr (unexpected expected : List Char) : ErrorImpl :=
  .message ("invalid value: ".toList ++ unexpected ++
    ", expected ".toList ++ expected) none

/-- Source `visit_scalar` (de.rs), specialised to the generic value visitor.
An explicit core-schema tag (when not already inside an enum-tag context)
forces that interpretation; a `!` tag on a plain scalar falls back to
untagged classification; a plain untagged (or already-tagged-context)
scalar is classified; everything else is delivered literally as a string
(`parse_borrowed_str` / `visit_str`). -/
def visit_scalar (g : List Char → Option FVal) (scalar : Scalar)
    (tagged_already : Bool) : Except ErrorImpl Value :=
  let v := scalar.value
  let fallthroughStr : Except ErrorImpl Value :=
    .ok (strTail v scalar.repr scalar.style)
  match scalar.tag, tagged_already with
  | some tag, false =>
    if tag = tagBool then
      match parse_bool v with
      | some b => .ok (.bool b)
      | none => .error (invalidValueErr v ("a boolean".toList))
    else if tag = tagInt then
      match visit_int v with
      | some r => .ok r
      | none => .error (invalidValueErr v ("an integer".toList))
    else if tag = tagFloat then
      match parse_f64 g v with
      | some fl => .ok (.float fl)
      | none => .error (invalidValueErr v ("a float".toList))
    else if tag = tagNull then
      match parse_null v with
      | some _ => .ok .null
      | none => .error (invalidValueErr v ("null".toList))
    else if tag.head? = some '!' ∧ scalar.style = .plain then
      .ok (visit_untagged_scalar g v scalar.repr scalar.style)
    else fallthroughStr
  | some _, true =>
    if scalar.style = .plain then
      .ok (visit_untagged_scalar g v scalar.repr scalar.style)
    else fallthroughStr
  | none, _ =>
    if scalar.style = .plain then
      .ok (visit_untagged_scalar g v scalar.repr scalar.style)
    else fallthroughStr

/-- Source `parse_tag` (de.rs): a tag whose first byte is `!` has that byte
stripped (unless nothing would remain) and is offered as an enum tag;
core-schema URI tags do not start with `!` and yield `none`. -/
def parse_tag (tag : Option (List Char)) : Option (List Char) :=
  match tag with
  | none => none
  | some bytes =>
    match bytes with
    | [] => none
    | b :: rest =>
      if b = '!' then some (if rest.isEmpty then bytes else rest)
      else none

/-- The `enum_tag` helper inside `deserialize_any` (de.rs): no enum-tag
redirection when already inside an enum-tag context. -/
def enum_tag (tag : Option (List Char)) (tagged_already : Bool) :
    Option (List Char) :=
  if tagged_already then none else parse_tag tag

/-! ## Spec-side classifier (refinement target for C1) -/

/-- The ambiguous-scalar classification exactly as the specification words
it: the empty string or a null token → null; a true token → true; a false
token → false; otherwise the integer parse is attempted; otherwise, only if
the text is not the digits-with-disallowed-leading-zero pattern, the float
parse is attempted; otherwise the text is a plain string. -/
def specClassify (g : List Char → Option FVal) (v : List Char) : Value :=
  if v = [] ∨ v = "null".toList ∨ v = "Null".toList ∨
      v = "NULL".toList ∨ v = "~".toList then .null
  else if v = "true".toList ∨ v = "True".toList ∨ v = "TRUE".toList then
    .bool true
  else if v = "false".toList ∨ v = "False".toList ∨ v = "FALSE".toList then
    .bool false
  else
    match visit_int v with
    | some n => n
    | none =>
      if digits_but_not_number v then .str v
      else
        match parse_f64 g v with
        | some fl => .float fl
        | none => .str v

/-! ## Helper lemmas -/

theorem stripPfx_single (c : Char) (s r : List Char) :
    stripPfx [c] s = some r ↔ s = c :: r := by
  cases s with
  | nil => simp [stripPfx]
  | cons a as =>
    simp only [stripPfx]
    split
    · rename_i h
      subst h
      simp [stripPfx]
    · rename_i h
      constructor
      · intro hc
        exact Option.noConfusion hc
      · intro hc
        injection hc with h1 h2
        exact absurd h1.symm h

theorem parse_borrowed_str_some (v : List Char) (reprB : Option (List Char))
    (style : ScalarStyle) (b : List Char)
    (h : parse_borrowed_str v reprB style = some b) : b = v := by
  unfold parse_borrowed_str at h
  repeat' split at h
  all_goals simp_all

theorem strTail_eq (v : List Char) (reprB : Option (List Char))
    (style : ScalarStyle) : strTail v reprB style = Value.str v := by
  unfold strTail
  cases h : parse_borrowed_str v reprB style with
  | none => rfl
  | some b => simp [parse_borrowed_str_some v reprB style b h]

theorem null_cond_eq (v : List Char) :
    (v.isEmpty || parse_null v == some ()) =
      decide (v = [] ∨ v = "null".toList ∨ v = "Null".toList ∨
        v = "NULL".toList ∨ v = "~".toList) := by
  unfold parse_null
  by_cases h : v = "null".toList ∨ v = "Null".toList ∨
      v = "NULL".toList ∨ v = "~".toList
  · rw [if_pos h, decide_eq_true (Or.inr h)]
    simp
  · rw [if_neg h]
    by_cases he : v = []
    · subst he
      rw [decide_eq_true (Or.inl rfl)]
      simp
    · have hP : ¬(v = [] ∨ v = "null".toList ∨ v = "Null".toList ∨
          v = "NULL".toList ∨ v = "~".toList) := by
        intro hc
        rcases hc with hc | hc
        · exact he hc
        · exact h hc
      rw [decide_eq_false hP]
      simp [List.isEmpty_iff, he]

/-- C1. For every untagged plain scalar, the classification implemented by
`visit_untagged_scalar` follows exactly the specified precedence: empty or
null token → null; bool token → bool; else integer parse; else (only if not
the digits-with-disallowed-leading-zero pattern) float parse; else plain
string. -/
theorem claim_C1 (g : List Char → Option FVal) (v : List Char)
    (reprB : Option (List Char)) (style : ScalarStyle) :
    visit_untagged_scalar g v reprB style = specClassify g v := by
  unfold visit_untagged_scalar specClassify
  rw [null_cond_eq]
  by_cases hN : v = [] ∨ v = "null".toList ∨ v = "Null".toList ∨
      v = "NULL".toList ∨ v = "~".toList
  · rw [decide_eq_true hN, if_pos hN]
    rfl
  · rw [decide_eq_false hN, if_neg hN]
    simp only [Bool.false_eq_true, if_false]
    have hb : parse_bool v =
        (if v = "true".toList ∨ v = "True".toList ∨ v = "TRUE".toList then
          some true
        else if v = "false".toList ∨ v = "False".toList ∨
            v = "FALSE".toList then some false
        else none) := rfl
    by_cases hT : v = "true".toList ∨ v = "True".toList ∨ v = "TRUE".toList
    · rw [hb, if_pos hT, if_pos hT]
    · rw [if_neg hT]
      by_cases hF : v = "false".toList ∨ v = "False".toList ∨
          v = "FALSE".toList
      · rw [hb, if_neg hT, if_pos hF, if_pos hF]
      · rw [hb, if_neg hT, if_neg hF, if_neg hF]
        cases visit_int v with
        | some n => rfl
        | none =>
          by_cases hd : digits_but_not_number v = true
          · simp [hd, strTail_eq]
          · simp only [Bool.not_eq_true] at hd
            simp [hd, strTail_eq]

/-! ## C2: the integer-parsing precedence and the leading-zero rule -/

theorem leading_zero_dbnn (c1 : Char) (rest : List Char)
    (hall : (c1 :: rest).all Char.isDigit = true) :
    digits_but_not_number ('0' :: c1 :: rest) = true := by
  unfold digits_but_not_number
  simp [stripPfx, hall]

theorem leading_zero_unsigned_none (f : List Char → Nat → Option Int)
    (c1 : Char) (rest : List Char)
    (hall : (c1 :: rest).all Char.isDigit = true) :
    parse_unsigned_int f ('0' :: c1 :: rest) = none := by
  have hc1 : c1.isDigit = true := by
    simp only [List.all_cons, Bool.and_eq_true] at hall
    exact hall.1
  have hne : ∀ c : Char, c.isDigit = false → ¬(c = c1) := by
    intro c hc h
    rw [h, hc1] at hc
    exact Bool.noConfusion hc
  simp [parse_unsigned_int, stripPfx, startsWithSign,
    hne 'x' (by decide), hne 'o' (by decide), hne 'b' (by decide),
    leading_zero_dbnn c1 rest hall]

theorem leading_zero_negative_none (f : List Char → Nat → Option Int)
    (c1 : Char) (rest : List Char)
    (hall : (c1 :: rest).all Char.isDigit = true) :
    parse_negative_int f ('0' :: c1 :: rest) = none := by
  simp [parse_negative_int, stripPfx, leading_zero_dbnn c1 rest hall]

/-- The general leading-zero consequence: a scalar of two or more characters
starting with a zero whose remaining characters are all digits classifies as
a plain string. -/
theorem leading_zero_classifies_str (c1 : Char) (rest : List Char)
    (hall : (c1 :: rest).all Char.isDigit = true)
    (g : List Char → Option FVal) (reprB : Option (List Char))
    (style : ScalarStyle) :
    visit_untagged_scalar g ('0' :: c1 :: rest) reprB style =
      .str ('0' :: c1 :: rest) := by
  have hvi : visit_int ('0' :: c1 :: rest) = none := by
    unfold visit_int
    rw [leading_zero_unsigned_none fromU64 c1 rest hall,
      leading_zero_negative_none fromI64 c1 rest hall,
      leading_zero_unsigned_none fromU128 c1 rest hall,
      leading_zero_negative_none fromI128 c1 rest hall]
  have hpn : parse_null ('0' :: c1 :: rest) = none := by
    simp [parse_null]
  have hpb : parse_bool ('0' :: c1 :: rest) = none := by
    simp [parse_bool]
  simp [visit_untagged_scalar, hpn, hpb, hvi,
    leading_zero_dbnn c1 rest hall, strTail_eq]

/-- C2. The integer parses are tried in order (unsigned 64-bit via
`parse_unsigned_int`, then the signed 64-bit negative-radix form via
`parse_negative_int`, then unsigned 128-bit, then signed 128-bit), the first
success winning; a decimal string of more than one digit starting with zero
that is otherwise all digits is not a number and classifies as a plain
string; and concretely 01 classifies as a string, 0 as the integer 0, and
the hexadecimal -0x1A as the signed integer -26. -/
theorem claim_C2 :
    (∀ v n, parse_unsigned_int fromU64 v = some n →
      visit_int v = some (.intU64 n)) ∧
    (∀ v n, parse_unsigned_int fromU64 v = none →
      parse_negative_int fromI64 v = some n →
      visit_int v = some (.intI64 n)) ∧
    (∀ v n, parse_unsigned_int fromU64 v = none →
      parse_negative_int fromI64 v = none →
      parse_unsigned_int fromU128 v = some n →
      visit_int v = some (.intU128 n)) ∧
    (∀ v n, parse_unsigned_int fromU64 v = none →
      parse_negative_int fromI64 v = none →
      parse_unsigned_int fromU128 v = none →
      parse_negative_int fromI128 v = some n →
      visit_int v = some (.intI128 n)) ∧
    (∀ (c1 : Char) (rest : List Char),
      (c1 :: rest).all Char.isDigit = true →
      ∀ g reprB style,
        visit_untagged_scalar g ('0' :: c1 :: rest) reprB style =
          .str ('0' :: c1 :: rest)) ∧
    (∀ g reprB style, visit_untagged_scalar g ("01".toList) reprB style =
      .str ("01".toList)) ∧
    (∀ g reprB style, visit_untagged_scalar g ("0".toList) reprB style =
      .intU64 0) ∧
    (∀ g reprB style, visit_untagged_scalar g ("-0x1A".toList) reprB style =
      .intI64 (-26)) := by
  refine ⟨?_, ?_, ?_, ?_, ?_, ?_, ?_, ?_⟩
  · intro v n h
    unfold visit_int
    rw [h]
  · intro v n h1 h2
    unfold visit_int
    rw [h1, h2]
  · intro v n h1 h2 h3
    unfold visit_int
    rw [h1, h2, h3]
  · intro v n h1 h2 h3 h4
    unfold visit_int
    rw [h1, h2, h3, h4]
  · intro c1 rest hall g reprB style
    exact leading_zero_classifies_str c1 rest hall g reprB style
  · intro g reprB style
    exact leading_zero_classifies_str '1' [] (by decide) g reprB style
  · intro g reprB style
    rfl
  · intro g reprB style
    rfl

/-! ## C8 and C10: the float token forms -/

/-- When every classification step fails, the scalar is a plain string. -/
theorem classify_float_none (g : List Char → Option FVal) (v : List Char)
    (reprB : Option (List Char)) (style : ScalarStyle)
    (hne : v.isEmpty = false) (hpn : parse_null v = none)
    (hpb : parse_bool v = none) (hvi : visit_int v = none)
    (hd : digits_but_not_number v = false)
    (hpf : parse_f64 g v = none) :
    visit_untagged_scalar g v reprB style = .str v := by
  simp [visit_untagged_scalar, hne, hpn, hpb, hvi, hd, hpf, strTail_eq]

/-- C8. The plain scalar text .nan (also .NaN, .NAN) parses as a float NaN
with positive sign bit and classifies as such, while -.nan does not parse as
a float at all (the standard decimal parser rejects it as well, which is the
hypothesis on `g`) and classifies as a plain string: the documented
asymmetry. -/
theorem claim_C8 (g : List Char → Option FVal)
    (hg : g ("-.nan".toList) = none) :
    parse_f64 g (".nan".toList) = some (.nan false) ∧
    parse_f64 g (".NaN".toList) = some (.nan false) ∧
    parse_f64 g (".NAN".toList) = some (.nan false) ∧
    parse_f64 g ("-.nan".toList) = none ∧
    (∀ reprB style, visit_untagged_scalar g (".nan".toList) reprB style =
      .float (.nan false)) ∧
    (∀ reprB style, visit_untagged_scalar g ("-.nan".toList) reprB style =
      .str ("-.nan".toList)) := by
  have h4 : parse_f64 g ("-.nan".toList) = none := by
    show (match g ("-.nan".toList) with
      | some fl => if fl.isFinite then some fl else none
      | none => none) = none
    rw [hg]
  refine ⟨rfl, rfl, rfl, h4, ?_, ?_⟩
  · intro reprB style
    rfl
  · intro reprB style
    exact classify_float_none g ("-.nan".toList) reprB style rfl rfl rfl
      rfl rfl h4

/-- C10. `parse_f64` returns a non-finite float only for the literal token
forms (.inf with an optionally stripped leading plus, -.inf, .nan, in their
three capitalisations); any other text whose standard decimal parse is
non-finite — such as 1e999, which overflows to infinity — yields `none`, so
the text classifies as a plain string. -/
theorem claim_C10 :
    (∀ (g : List Char → Option FVal) (s : List Char) (fv : FVal),
      parse_f64 g s = some fv → fv.isFinite = false →
      s = ".inf".toList ∨ s = ".Inf".toList ∨ s = ".INF".toList ∨
      s = "+.inf".toList ∨ s = "+.Inf".toList ∨ s = "+.INF".toList ∨
      s = "-.inf".toList ∨ s = "-.Inf".toList ∨ s = "-.INF".toList ∨
      s = ".nan".toList ∨ s = ".NaN".toList ∨ s = ".NAN".toList) ∧
    (∀ g : List Char → Option FVal, g ("1e999".toList) = some (.inf false) →
      parse_f64 g ("1e999".toList) = none ∧
      ∀ reprB style, visit_untagged_scalar g ("1e999".toList) reprB style =
        .str ("1e999".toList)) := by
  constructor
  · intro g s fv h hfin
    unfold parse_f64 at h
    cases hp : stripPfx ("+".toList) s with
    | some u =>
      rw [hp] at h
      dsimp only at h
      have hs : s = '+' :: u := (stripPfx_single '+' s u).mp hp
      by_cases hsgn : startsWithSign u = true
      · rw [if_pos hsgn] at h
        exact Option.noConfusion h
      · rw [if_neg hsgn] at h
        dsimp only at h
        by_cases h1 : u = ".inf".toList ∨ u = ".Inf".toList ∨
            u = ".INF".toList
        · rcases h1 with h1 | h1 | h1 <;> subst h1 <;> subst hs
          · exact Or.inr (Or.inr (Or.inr (Or.inl rfl)))
          · exact Or.inr (Or.inr (Or.inr (Or.inr (Or.inl rfl))))
          · exact Or.inr (Or.inr (Or.inr (Or.inr (Or.inr (Or.inl rfl)))))
        · rw [if_neg h1] at h
          by_cases h2 : s = "-.inf".toList ∨ s = "-.Inf".toList ∨
              s = "-.INF".toList
          · rcases h2 with h2 | h2 | h2 <;>
              exact by subst h2; simp at hs
          · rw [if_neg h2] at h
            by_cases h3 : s = ".nan".toList ∨ s = ".NaN".toList ∨
                s = ".NAN".toList
            · rcases h3 with h3 | h3 | h3 <;>
                exact by subst h3; simp at hs
            · rw [if_neg h3] at h
              cases hgv : g u with
              | none =>
                rw [hgv] at h
                exact Option.noConfusion h
              | some fl =>
                rw [hgv] at h
                dsimp only at h
                by_cases hfl : fl.isFinite = true
                · rw [if_pos hfl] at h
                  injection h with h
                  rw [← h] at hfin
                  rw [hfl] at hfin
                  exact Bool.noConfusion hfin
                · rw [if_neg hfl] at h
                  exact Option.noConfusion h
    | none =>
      rw [hp] at h
      dsimp only at h
      by_cases h1 : s = ".inf".toList ∨ s = ".Inf".toList ∨
          s = ".INF".toList
      · rcases h1 with h1 | h1 | h1
        · exact Or.inl h1
        · exact Or.inr (Or.inl h1)
        · exact Or.inr (Or.inr (Or.inl h1))
      · rw [if_neg h1] at h
        by_cases h2 : s = "-.inf".toList ∨ s = "-.Inf".toList ∨
            s = "-.INF".toList
        · rcases h2 with h2 | h2 | h2
          · exact Or.inr (Or.inr (Or.inr (Or.inr (Or.inr (Or.inr
              (Or.inl h2))))))
          · exact Or.inr (Or.inr (Or.inr (Or.inr (Or.inr (Or.inr
              (Or.inr (Or.inl h2)))))))
          · exact Or.inr (Or.inr (Or.inr (Or.inr (Or.inr (Or.inr
              (Or.inr (Or.inr (Or.inl h2))))))))
        · rw [if_neg h2] at h
          by_cases h3 : s = ".nan".toList ∨ s = ".NaN".toList ∨
              s = ".NAN".toList
          · rcases h3 with h3 | h3 | h3
            · exact Or.inr (Or.inr (Or.inr (Or.inr (Or.inr (Or.inr
                (Or.inr (Or.inr (Or.inr (Or.inl h3)))))))))
            · exact Or.inr (Or.inr (Or.inr (Or.inr (Or.inr (Or.inr
                (Or.inr (Or.inr (Or.inr (Or.inr (Or.inl h3))))))))))
            · exact Or.inr (Or.inr (Or.inr (Or.inr (Or.inr (Or.inr
                (Or.inr (Or.inr (Or.inr (Or.inr (Or.inr h3))))))))))
          · rw [if_neg h3] at h
            cases hgv : g s with
            | none =>
              rw [hgv] at h
              exact Option.noConfusion h
            | some fl =>
              rw [hgv] at h
              dsimp only at h
              by_cases hfl : fl.isFinite = true
              · rw [if_pos hfl] at h
                injection h with h
                rw [← h] at hfin
                rw [hfl] at hfin
                exact Bool.noConfusion hfin
              · rw [if_neg hfl] at h
                exact Option.noConfusion h
  · intro g hg
    have hpf : parse_f64 g ("1e999".toList) = none := by
      show (match g ("1e999".toList) with
        | some fl => if fl.isFinite then some fl else none
        | none => none) = none
      rw [hg]
      rfl
    refine ⟨hpf, ?_⟩
    intro reprB style
    exact classify_float_none g ("1e999".toList) reprB style rfl rfl rfl
      rfl rfl hpf

/-! ## The error display and debug model (modules/error.rs, libyaml/error.rs) -/

/-- `Display for Mark` (libyaml error.rs): non-zero line or column renders
1-based as line/column, otherwise the byte position. -/
def markDisplay (m : Mark) : List Char :=
  if m.line ≠ 0 ∨ m.column ≠ 0 then
    "line ".toList ++ (Nat.repr (m.line + 1)).toList ++
      " column ".toList ++ (Nat.repr (m.column + 1)).toList
  else
    "position ".toList ++ (Nat.repr m.index).toList

/-- `ErrorImpl::mark` (modules/error.rs). -/
def errMark : ErrorImpl → Option Mark
  | .message _ (some p) => some p.mark
  | .recursionLimitExceeded m => some m
  | .unknownAnchor m => some m
  | .libyaml e => some e.problem_mark
  | .shared e => errMark e
  | _ => none

/-- `ErrorImpl::message_no_mark` (modules/error.rs). A message error with a
resolved position renders the path first (omitted when it is the root path
consisting of a single dot), then the message. The `Libyaml` and `Shared`
variants are unreachable from `display` and are given a placeholder. -/
def message_no_mark : ErrorImpl → List Char
  | .message msg none => msg
  | .message msg (some p) =>
    if p.path ≠ ".".toList then p.path ++ ": ".toList ++ msg else msg
  | .libyaml _ => "unreachable".toList
  | .io msg => msg
  | .fromUtf8 => "invalid utf-8".toList
  | .endOfStream => "EOF while parsing a value".toList
  | .moreThanOneDocument =>
    ("deserializing from YAML containing more than one document " ++
      "is not supported").toList
  | .recursionLimitExceeded _ => "recursion limit exceeded".toList
  | .repetitionLimitExceeded => "repetition limit exceeded".toList
  | .bytesUnsupported =>
    ("serialization and deserialization of bytes in YAML is " ++
      "not implemented").toList
  | .unknownAnchor _ => "unknown anchor".toList
  | .serializeNestedEnum =>
    "serializing nested enums in YAML is not supported yet".toList
  | .scalarInMerge =>
    ("expected a mapping or list of mappings for merging, " ++
      "but found scalar").toList
  | .taggedInMerge => "unexpected tagged value in merge".toList
  | .scalarInMergeElement =>
    "expected a mapping for merging, but found scalar".toList
  | .sequenceInMergeElement =>
    "expected a mapping for merging, but found sequence".toList
  | .emptyTag => "empty YAML tag is not allowed".toList
  | .failedToParseNumber => "failed to parse YAML number".toList
  | .shared _ => "unreachable".toList

/-- `Display for Error` (libyaml error.rs): the problem text, a location
suffix (line/column when the problem mark has a non-zero line or column,
else the byte position when the offset is non-zero, else nothing), and the
optional context with its own mark. -/
def libyamlDisplay (e : LibyamlError) : List Char :=
  e.problem ++
    (if e.problem_mark.line ≠ 0 ∨ e.problem_mark.column ≠ 0 then
      " at ".toList ++ markDisplay e.problem_mark
    else if e.problem_offset ≠ 0 then
      " at position ".toList ++ (Nat.repr e.problem_offset).toList
    else []) ++
    (match e.context with
    | some ctx =>
      ", ".toList ++ ctx ++
        (if (e.context_mark.line ≠ 0 ∨ e.context_mark.column ≠ 0) ∧
            (e.context_mark.line ≠ e.problem_mark.line ∨
              e.context_mark.column ≠ e.problem_mark.column) then
          " at ".toList ++ markDisplay e.context_mark
        else [])
    | none => [])

/-- `ErrorImpl::display` (modules/error.rs): a wrapped tokenizer error uses
its own rendering; a shared error renders as the inner error; everything
else renders the message (with path) and appends the mark only when it has
a non-zero line or column. -/
def displayErr : ErrorImpl → List Char
  | .libyaml e => libyamlDisplay e
  | .shared e => displayErr e
  | e =>
    message_no_mark e ++
      (match errMark e with
      | some m =>
        if m.line ≠ 0 ∨ m.column ≠ 0 then " at ".toList ++ markDisplay m
        else []
      | none => [])

/-- The raw error-kind tags printed by `Debug for Error`
(libyaml error.rs). -/
def libyamlKindName : YKind → Option (List Char)
  | .memoryError => some ("MEMORY".toList)
  | .readerError => some ("READER".toList)
  | .scannerError => some ("SCANNER".toList)
  | .yamlParseError => some ("PARSER".toList)
  | .composerError => some ("COMPOSER".toList)
  | .writerError => some ("WRITER".toList)
  | .emitterError => some ("EMITTER".toList)
  | .noError => none

/-- A quoted rendering of a string for `Debug` output (escapes are not
load-bearing for any claim and are not modelled). -/
def quoteStr (s : List Char) : List Char :=
  '"' :: s ++ ['"']

/-- The fields emitted by `Debug for Error` (libyaml error.rs) through
`debug_struct`: the kind tag (when recognised), the problem, the problem
mark or offset, and the context. Modelled as the ordered field list the
formatter receives. -/
def libyamlDebugFields (e : LibyamlError) : List (List Char × List Char) :=
  (match libyamlKindName e.kind with
  | some k => [("kind".toList, k)]
  | none => []) ++
  [("problem".toList, quoteStr e.problem)] ++
  (if e.problem_mark.line ≠ 0 ∨ e.problem_mark.column ≠ 0 then
    [("problem_mark".toList, markDisplay e.problem_mark)]
  else if e.problem_offset ≠ 0 then
    [("problem_offset".toList, (Nat.repr e.problem_offset).toList)]
  else []) ++
  (match e.context with
  | some ctx =>
    [("context".toList, quoteStr ctx)] ++
      (if e.context_mark.line ≠ 0 ∨ e.context_mark.column ≠ 0 then
        [("context_mark".toList, markDisplay e.context_mark)]
      else [])
  | none => [])

/-- `ErrorImpl::debug` (modules/error.rs): for non-tokenizer errors the
debug rendering shows only the quoted message and the 1-based location — no
error-kind tag. -/
def debugErr : ErrorImpl → List Char
  | .libyaml e =>
    "Error \x7b ".toList ++
      (libyamlDebugFields e).foldr
        (fun f acc => f.1 ++ ": ".toList ++ f.2 ++ ", ".toList ++ acc) [] ++
      "\x7d".toList
  | .shared e => debugErr e
  | e =>
    "Error(".toList ++ quoteStr (message_no_mark e) ++
      (match errMark e with
      | some m =>
        ", line: ".toList ++ (Nat.repr (m.line + 1)).toList ++
          ", column: ".toList ++ (Nat.repr (m.column + 1)).toList
      | none => []) ++
      ")".toList

/-- C7 counterexample. The claim renders a positioned message error as
`<message>: <path> at line L column C`, but the code writes the path before
the message: for message `invalid type`, path `k` and 0-based mark line 2
column 4 the code produces `k: invalid type at line 3 column 5`, which
differs from the claim's `invalid type: k at line 3 column 5`. -/
theorem claim_C7_cex :
    displayErr (.message ("invalid type".toList)
        (some ⟨⟨0, 2, 4⟩, "k".toList⟩)) =
      "k: invalid type at line 3 column 5".toList ∧
    "k: invalid type at line 3 column 5".toList ≠
      "invalid type: k at line 3 column 5".toList := by
  exact ⟨rfl, by decide⟩

/-- C7 (amended). The Display rendering of a positioned message error is
`[<path>: ]<message> at line L column C` (path first, omitted when it is
the root path `.`; line and column 1-based) when the mark has a non-zero
line or column; a markless or zero-marked non-tokenizer error carries no
location suffix; the `at position N` fallback belongs to wrapped tokenizer
errors whose mark is all zero and whose offset is non-zero; and the Debug
rendering exposes the raw error-kind tag for tokenizer errors (only — a
non-tokenizer error's debug output is the quoted message and location). -/
theorem claim_C7 :
    (∀ (msg : List Char) (p : ErrPos), p.path ≠ ".".toList →
      (p.mark.line ≠ 0 ∨ p.mark.column ≠ 0) →
      displayErr (.message msg (some p)) =
        p.path ++ ": ".toList ++ msg ++ " at line ".toList ++
          (Nat.repr (p.mark.line + 1)).toList ++ " column ".toList ++
          (Nat.repr (p.mark.column + 1)).toList) ∧
    (∀ msg : List Char, displayErr (.message msg none) = msg) ∧
    (∀ (msg : List Char) (p : ErrPos), p.mark.line = 0 →
      p.mark.column = 0 →
      displayErr (.message msg (some p)) =
        message_no_mark (.message msg (some p))) ∧
    (∀ e : LibyamlError, e.problem_mark.line = 0 →
      e.problem_mark.column = 0 → e.problem_offset ≠ 0 →
      e.context = none →
      displayErr (.libyaml e) =
        e.problem ++ " at position ".toList ++
          (Nat.repr e.problem_offset).toList) ∧
    (∀ (e : LibyamlError) (k : List Char),
      libyamlKindName e.kind = some k →
      ("kind".toList, k) ∈ libyamlDebugFields e) ∧
    (∀ msg : List Char, debugErr (.message msg none) =
      "Error(".toList ++ quoteStr msg ++ ")".toList) := by
  refine ⟨?_, ?_, ?_, ?_, ?_, ?_⟩
  · intro msg p hp hm
    have hp2 : ¬(p.path = ['.']) := by
      intro h
      exact hp (by rw [h]; rfl)
    simp [displayErr, message_no_mark, errMark, markDisplay, hp2, hm,
      List.append_assoc]
  · intro msg
    simp [displayErr, message_no_mark, errMark]
  · intro msg p h1 h2
    simp [displayErr, errMark, h1, h2]
  · intro e h1 h2 h3 h4
    simp [displayErr, libyamlDisplay, h1, h2, h3, h4, List.append_assoc]
  · intro e k hk
    simp [libyamlDebugFields, hk]
  · intro msg
    simp [debugErr, errMark, message_no_mark]

/-! ## Events and the `deserialize_option` decision (C9) -/

/-- A buffered event (de.rs `Event`): alias id, scalar, collection
boundaries, or the void sentinel. -/
inductive Event
  | aliasE (id : Nat)
  | scalar (s : Scalar)
  | sequenceStart (anchor : Option (List Char)) (tag : Option (List Char))
  | sequenceEnd
  | mappingStart (anchor : Option (List Char)) (tag : Option (List Char))
  | mappingEnd
  | void
deriving DecidableEq

/-- The decision `deserialize_option` (de.rs) takes after peeking one
event. -/
inductive OptDecision
  | jumpTo (id : Nat)
  | invalidValueNull
  | someValue
  | noneValue
  | fatalEnd
deriving DecidableEq

/-- Source `deserialize_option` (de.rs), as the decision made from the
peeked event: an alias recurses through a jump; a non-plain scalar is
always a present value; a plain scalar with an explicit null tag (outside
an enum-tag context) requires a null token (else `invalid_value`); an
untagged (or enum-tag-context) plain scalar is present exactly when
non-empty and not a null token; collections are present; `Void` is absent;
a collection end is a fatal invariant violation. `someValue` stands for
`visitor.visit_some(self)` and `noneValue` for consuming the event and
calling `visitor.visit_none()`. -/
def deserialize_option_decision (tagged_already : Bool) (ev : Event) :
    OptDecision :=
  match ev with
  | .aliasE id => .jumpTo id
  | .scalar scalar =>
    if scalar.style ≠ .plain then .someValue
    else
      match scalar.tag, tagged_already with
      | some tag, false =>
        if tag = tagNull then
          match parse_null scalar.value with
          | some _ => .noneValue
          | none => .invalidValueNull
        else .someValue
      | _, _ =>
        if ¬scalar.value.isEmpty ∧ parse_null scalar.value = none then
          .someValue
        else .noneValue
  | .sequenceStart _ _ => .someValue
  | .mappingStart _ _ => .someValue
  | .sequenceEnd => .fatalEnd
  | .mappingEnd => .fatalEnd
  | .void => .noneValue

/-- C9. In `deserialize_option` the null test applies only to plain-styled
scalars: every non-plain scalar is a present value even when its text is
null or empty; and a `None` decision arises only from the Void event or
from a plain scalar that is empty or a null token; conversely a plain
null-tagged null-token scalar outside an enum context, a plain untagged
empty-or-null scalar, and Void all yield `None`. -/
theorem claim_C9 :
    (∀ (ta : Bool) (sc : Scalar), sc.style ≠ .plain →
      deserialize_option_decision ta (.scalar sc) = .someValue) ∧
    (∀ (ta : Bool) (ev : Event),
      deserialize_option_decision ta ev = .noneValue →
      ev = .void ∨ ∃ sc, ev = .scalar sc ∧ sc.style = .plain ∧
        (sc.value = [] ∨ parse_null sc.value = some ())) ∧
    (∀ sc : Scalar, sc.style = .plain → sc.tag = some tagNull →
      parse_null sc.value = some () →
      deserialize_option_decision false (.scalar sc) = .noneValue) ∧
    (∀ (ta : Bool) (sc : Scalar), sc.style = .plain → sc.tag = none →
      (sc.value = [] ∨ parse_null sc.value = some ()) →
      deserialize_option_decision ta (.scalar sc) = .noneValue) ∧
    (∀ ta : Bool, deserialize_option_decision ta .void = .noneValue) := by
  refine ⟨?_, ?_, ?_, ?_, ?_⟩
  · intro ta sc hs
    simp [deserialize_option_decision, hs]
  · intro ta ev h
    cases ev with
    | void => exact Or.inl rfl
    | aliasE id => exact absurd h (by simp [deserialize_option_decision])
    | sequenceStart a t =>
      exact absurd h (by simp [deserialize_option_decision])
    | mappingStart a t =>
      exact absurd h (by simp [deserialize_option_decision])
    | sequenceEnd => exact absurd h (by simp [deserialize_option_decision])
    | mappingEnd => exact absurd h (by simp [deserialize_option_decision])
    | scalar sc =>
      obtain ⟨anchor, tag, value, style, rb⟩ := sc
      refine Or.inr ⟨⟨anchor, tag, value, style, rb⟩, rfl, ?_⟩
      cases style with
      | singleQuoted =>
        exact absurd h (by simp [deserialize_option_decision])
      | doubleQuoted =>
        exact absurd h (by simp [deserialize_option_decision])
      | literal => exact absurd h (by simp [deserialize_option_decision])
      | folded => exact absurd h (by simp [deserialize_option_decision])
      | plain =>
        refine ⟨rfl, ?_⟩
        by_cases he : value = []
        · exact Or.inl he
        · by_cases hpn : parse_null value = some ()
          · exact Or.inr hpn
          · have hpn2 : parse_null value = none := by
              cases hv : parse_null value with
              | none => rfl
              | some u => cases u; exact absurd hv hpn
            have hie : value.isEmpty = false := by
              simp [List.isEmpty_iff, he]
            cases tag with
            | none =>
              exact absurd h
                (by simp [deserialize_option_decision, hpn2, hie])
            | some t =>
              cases ta with
              | true =>
                exact absurd h
                  (by simp [deserialize_option_decision, hpn2, hie])
              | false =>
                by_cases ht : t = tagNull
                · exact absurd h
                    (by simp [deserialize_option_decision, hpn2, ht])
                · exact absurd h
                    (by simp [deserialize_option_decision, hpn2, ht])
  · intro sc hs ht hv
    simp [deserialize_option_decision, hs, ht, hv, tagNull]
  · intro ta sc hs ht hv
    rcases hv with hv | hv <;>
      simp [deserialize_option_decision, hs, ht, hv]
  · intro ta
    rfl

/-! ## The cursor-based deserialization engine (de.rs) -/

/-- Errors of the modelled engine: a user-facing `Result` error, a fatal
invariant violation (a Rust `panic!` or `unreachable!`), or exhaustion of
the evaluation fuel (a model artifact — the Rust engine recurses on the
call stack and carries no fuel). -/
inductive EngineErr
  | err (e : ErrorImpl)
  | fatal (msg : List Char)
  | fuelOut
deriving DecidableEq

/-- The cursor state threaded through recursive descents: the shared event
position, the document-global alias-jump counter, and the remaining
recursion depth (`remaining_depth`, a `u8` in the source, only ever
decremented from 128). -/
structure DeState where
  pos : Nat
  jumpcount : Nat
  remaining_depth : Nat
deriving DecidableEq

/-- The structural path (modules/path.rs `Path`). -/
inductive EPath
  | root
  | seqSeg (parent : EPath) (index : Nat)
  | mapSeg (parent : EPath) (key : List Char)
  | aliasSeg (parent : EPath)
  | unknownSeg (parent : EPath)

/-- `Display for Path` (modules/path.rs): the parent renders followed by a
dot unless it is the root; a sequence segment renders its index between
escaped brackets, a map segment its key, an alias segment nothing, an
unknown segment a question mark; the root alone renders as a dot. -/
def pathToString : EPath → List Char
  | .root => ".".toList
  | .seqSeg parent index =>
    (match parent with
    | .root => []
    | q => pathToString q ++ ".".toList) ++
      "\\[".toList ++ (Nat.repr index).toList ++ "\\]".toList
  | .mapSeg parent key =>
    (match parent with
    | .root => []
    | q => pathToString q ++ ".".toList) ++ key
  | .aliasSeg parent =>
    match parent with
    | .root => []
    | q => pathToString q ++ ".".toList
  | .unknownSeg parent =>
    (match parent with
    | .root => []
    | q => pathToString q ++ ".".toList) ++ "?".toList

/-- Assoc-list lookup modelling `BTreeMap::get`. -/
def lookupA {κ β : Type} [DecidableEq κ] : List (κ × β) → κ → Option β
  | [], _ => none
  | kv :: rest, k => if kv.1 = k then some kv.2 else lookupA rest k

/-- Assoc-list insert-or-replace modelling `BTreeMap::insert` (so the list
length agrees with `BTreeMap::len`). -/
def insertA {κ β : Type} [DecidableEq κ] : List (κ × β) → κ → β →
    List (κ × β)
  | [], k, v => [(k, v)]
  | kv :: rest, k, v =>
    if kv.1 = k then (k, v) :: rest else kv :: insertA rest k v

/-- A buffered document (loader.rs `Document`): the ordered events with
their marks, the optionally captured terminal parse error, and the map from
anchor id to the event index where the anchored node begins (`aliases` in
loader.rs, read as `anchor_event_map` by the engine). -/
structure Document where
  events : List (Event × Mark)
  error : Option ErrorImpl
  anchor_event_map : List (Nat × Nat)

/-- `peek_event_mark` (de.rs): reading past the buffered prefix surfaces the
captured parse error as a shared error, or end-of-stream. -/
def peekEventMark (doc : Document) (pos : Nat) :
    Except EngineErr (Event × Mark) :=
  match doc.events[pos]? with
  | some em => .ok em
  | none =>
    .error (.err (match doc.error with
    | some parse_error => .shared parse_error
    | none => .endOfStream))

/-- `DeserializerFromEvents::jump` (de.rs): increment the shared jump
counter, fail with `RepetitionLimitExceeded` once it exceeds one hundred
times the buffer length, then rebind the position to the anchor target; the
child cursor copies `remaining_depth` unchanged. An unresolved alias is a
panic (fatal), not a `Result` error. -/
def jumpM (doc : Document) (st : DeState) (id : Nat) :
    Except EngineErr DeState :=
  let jc := st.jumpcount + 1
  if jc > doc.events.length * 100 then
    .error (.err .repetitionLimitExceeded)
  else
    match lookupA doc.anchor_event_map id with
    | some found => .ok ⟨found, jc, st.remaining_depth⟩
    | none => .error (.fatal ("unresolved alias".toList))

/-- `error::fix_mark` (modules/error.rs): backfill the mark and rendered
path into a message error that does not carry a position yet. -/
def fix_mark (e : ErrorImpl) (mark : Mark) (path : EPath) : ErrorImpl :=
  match e with
  | .message msg none => .message msg (some ⟨mark, pathToString path⟩)
  | other => other

/-- The `map_err(|err| error::fix_mark(err, mark, path))` applied by every
shape dispatcher: only user-facing errors are fixed up. -/
def fixMarkE (r : Except EngineErr (Value × DeState)) (mark : Mark)
    (path : EPath) : Except EngineErr (Value × DeState) :=
  match r with
  | .error (.err e) => .error (.err (fix_mark e mark path))
  | other => other

/-- `ignore_any` (de.rs): skip one value by walking events with an explicit
nesting stack (`true` = sequence, `false` = mapping); aliases are skipped
without jumping; mismatched collection ends are panics. -/
def ignoreAny : Nat → Document → List Bool → DeState →
    Except EngineErr DeState
  | 0, _, _, _ => .error .fuelOut
  | fuel + 1, doc, stack, st =>
    match peekEventMark doc st.pos with
    | .error e => .error e
    | .ok (ev, _) =>
      let st1 : DeState := ⟨st.pos + 1, st.jumpcount, st.remaining_depth⟩
      match ev with
      | .aliasE _ =>
        if stack.isEmpty then .ok st1 else ignoreAny fuel doc stack st1
      | .scalar _ =>
        if stack.isEmpty then .ok st1 else ignoreAny fuel doc stack st1
      | .void =>
        if stack.isEmpty then .ok st1 else ignoreAny fuel doc stack st1
      | .sequenceStart _ _ => ignoreAny fuel doc (true :: stack) st1
      | .mappingStart _ _ => ignoreAny fuel doc (false :: stack) st1
      | .sequenceEnd =>
        match stack with
        | true :: rest =>
          if rest.isEmpty then .ok st1 else ignoreAny fuel doc rest st1
        | _ => .error (.fatal ("unexpected end of sequence".toList))
      | .mappingEnd =>
        match stack with
        | false :: rest =>
          if rest.isEmpty then .ok st1 else ignoreAny fuel doc rest st1
        | _ => .error (.fatal ("unexpected end of mapping".toList))

/-- The `invalid_length` error of `end_sequence` (de.rs). -/
def invalidLengthSeq (total len : Nat) : ErrorImpl :=
  .message ("invalid length ".toList ++ (Nat.repr total).toList ++
    ", expected sequence of ".toList ++ (Nat.repr len).toList ++
    " elements".toList) none

/-- The `invalid_length` error of `end_mapping` (de.rs). -/
def invalidLengthMap (total len : Nat) : ErrorImpl :=
  .message ("invalid length ".toList ++ (Nat.repr total).toList ++
    ", expected map containing ".toList ++ (Nat.repr len).toList ++
    " entries".toList) none

/-- The drain loop of `end_sequence` (de.rs): remaining elements are
consumed through `IgnoredAny` (that is, `ignore_any`), counting them. -/
def seqDrain : Nat → Document → DeState → Nat →
    Except EngineErr (Nat × DeState)
  | 0, _, _, _ => .error .fuelOut
  | fuel + 1, doc, st, len =>
    match peekEventMark doc st.pos with
    | .error e => .error e
    | .ok (ev, _) =>
      match ev with
      | .sequenceEnd => .ok (len, st)
      | .void => .ok (len, st)
      | _ =>
        match ignoreAny fuel doc [] st with
        | .error e => .error e
        | .ok st2 => seqDrain fuel doc st2 (len + 1)

/-- `end_sequence` (de.rs): drain the remaining elements, require the
`SequenceEnd` (or `Void`) event (else panic), and fail with a descriptive
`invalid_length` error when the drained total differs from the length the
visitor consumed. -/
def endSequenceM (fuel : Nat) (doc : Document) (st : DeState) (len : Nat) :
    Except EngineErr DeState :=
  match seqDrain fuel doc st len with
  | .error e => .error e
  | .ok (total, st2) =>
    match peekEventMark doc st2.pos with
    | .error e => .error e
    | .ok (ev, _) =>
      let st3 : DeState := ⟨st2.pos + 1, st2.jumpcount, st2.remaining_depth⟩
      match ev with
      | .sequenceEnd =>
        if total = len then .ok st3
        else .error (.err (invalidLengthSeq total len))
      | .void =>
        if total = len then .ok st3
        else .error (.err (invalidLengthSeq total len))
      | _ => .error (.fatal ("expected a SequenceEnd event".toList))

/-- The drain loop of `end_mapping` (de.rs): remaining entries (key and
value) are consumed through `IgnoredAny`, counting them. -/
def mapDrain : Nat → Document → DeState → Nat →
    Except EngineErr (Nat × DeState)
  | 0, _, _, _ => .error .fuelOut
  | fuel + 1, doc, st, len =>
    match peekEventMark doc st.pos with
    | .error e => .error e
    | .ok (ev, _) =>
      match ev with
      | .mappingEnd => .ok (len, st)
      | .void => .ok (len, st)
      | _ =>
        match ignoreAny fuel doc [] st with
        | .error e => .error e
        | .ok st2 =>
          match ignoreAny fuel doc [] st2 with
          | .error e => .error e
          | .ok st3 => mapDrain fuel doc st3 (len + 1)

/-- `end_mapping` (de.rs): symmetric to `end_sequence`. -/
def endMappingM (fuel : Nat) (doc : Document) (st : DeState) (len : Nat) :
    Except EngineErr DeState :=
  match mapDrain fuel doc st len with
  | .error e => .error e
  | .ok (total, st2) =>
    match peekEventMark doc st2.pos with
    | .error e => .error e
    | .ok (ev, _) =>
      let st3 : DeState := ⟨st2.pos + 1, st2.jumpcount, st2.remaining_depth⟩
      match ev with
      | .mappingEnd =>
        if total = len then .ok st3
        else .error (.err (invalidLengthMap total len))
      | .void =>
        if total = len then .ok st3
        else .error (.err (invalidLengthMap total len))
      | _ => .error (.fatal ("expected a MappingEnd event".toList))

mutual

/-- `deserialize_any` (de.rs) driving the generic value visitor (the crate's
`Value` deserializer, whose visitor implementation lives outside src/ and is
modelled from the spec, section 4.2/4.2.3: every `visit_*` maps to the
`Value` constructor, `visit_enum` resolves the tag as the variant name and
feeds the remaining node back through the same dispatch with the enum-tag
context set, producing a tagged value). The cursor mechanics are the
source's: an alias jumps (`jump`) and resumes the caller's own position
afterwards with the shared jump counter updated; an enum tag rewinds the
position by one and dispatches with `current_enum` set; a sequence or
mapping start runs the `recursion_check`-guarded collection visit (the
depth decrement, the visit, the depth restore, then `end_sequence` /
`end_mapping`); collection ends are panics; `Void` visits none. Every
outcome passes through the `fix_mark` error backfill. -/
def deserAny : Nat → (List Char → Option FVal) → Document →
    Option (List Char) → EPath → DeState →
    Except EngineErr (Value × DeState)
  | 0, _, _, _, _, _ => .error .fuelOut
  | fuel + 1, g, doc, ce, path, st =>
    match peekEventMark doc st.pos with
    | .error e => .error e
    | .ok (next, mark) =>
      let tagged_already := ce.isSome
      let st1 : DeState := ⟨st.pos + 1, st.jumpcount, st.remaining_depth⟩
      fixMarkE
        (match next with
        | .aliasE id =>
          match jumpM doc st1 id with
          | .error e => .error e
          | .ok child =>
            match deserAny fuel g doc none (.aliasSeg path) child with
            | .error e => .error e
            | .ok (v, stc) =>
              .ok (v, ⟨st1.pos, stc.jumpcount, st1.remaining_depth⟩)
        | .scalar sc =>
          match enum_tag sc.tag tagged_already with
          | some tag =>
            match deserAny fuel g doc (some tag) path
                ⟨st1.pos - 1, st1.jumpcount, st1.remaining_depth⟩ with
            | .error e => .error e
            | .ok (v, st2) => .ok (.tagged tag v, st2)
          | none =>
            match visit_scalar g sc tagged_already with
            | .ok v => .ok (v, st1)
            | .error e => .error (.err e)
        | .sequenceStart _ tag =>
          match enum_tag tag tagged_already with
          | some t =>
            match deserAny fuel g doc (some t) path
                ⟨st1.pos - 1, st1.jumpcount, st1.remaining_depth⟩ with
            | .error e => .error e
            | .ok (v, st2) => .ok (.tagged t v, st2)
          | none =>
            match st1.remaining_depth with
            | 0 => .error (.err (.recursionLimitExceeded mark))
            | d + 1 =>
              match seqItems fuel g doc path ⟨st1.pos, st1.jumpcount, d⟩
                  0 with
              | .error e => .error e
              | .ok (items, len, st2) =>
                match endSequenceM fuel doc
                    ⟨st2.pos, st2.jumpcount, st1.remaining_depth⟩ len with
                | .error e => .error e
                | .ok st3 => .ok (.seq items, st3)
        | .mappingStart _ tag =>
          match enum_tag tag tagged_already with
          | some t =>
            match deserAny fuel g doc (some t) path
                ⟨st1.pos - 1, st1.jumpcount, st1.remaining_depth⟩ with
            | .error e => .error e
            | .ok (v, st2) => .ok (.tagged t v, st2)
          | none =>
            match st1.remaining_depth with
            | 0 => .error (.err (.recursionLimitExceeded mark))
            | d + 1 =>
              match mapEntries fuel g doc path ⟨st1.pos, st1.jumpcount, d⟩
                  0 with
              | .error e => .error e
              | .ok (entries, len, st2) =>
                match endMappingM fuel doc
                    ⟨st2.pos, st2.jumpcount, st1.remaining_depth⟩ len with
                | .error e => .error e
                | .ok st3 => .ok (.map entries, st3)
        | .sequenceEnd =>
          .error (.fatal ("unexpected end of sequence".toList))
        | .mappingEnd =>
          .error (.fatal ("unexpected end of mapping".toList))
        | .void => .ok (.null, st1))
        mark path

/-- The `SeqAccess::next_element_seed` loop (de.rs) with the value seed:
each element cursor shares position, jump counter and (already-decremented)
depth, carries a `Seq` path segment, and clears the enum context; the loop
stops at `SequenceEnd` or `Void`. -/
def seqItems : Nat → (List Char → Option FVal) → Document → EPath →
    DeState → Nat → Except EngineErr (List Value × Nat × DeState)
  | 0, _, _, _, _, _ => .error .fuelOut
  | fuel + 1, g, doc, path, st, len =>
    match peekEventMark doc st.pos with
    | .error e => .error e
    | .ok (ev, _) =>
      match ev with
      | .sequenceEnd => .ok ([], len, st)
      | .void => .ok ([], len, st)
      | _ =>
        match deserAny fuel g doc none (.seqSeg path len) st with
        | .error e => .error e
        | .ok (v, st2) =>
          match seqItems fuel g doc path st2 (len + 1) with
          | .error e => .error e
          | .ok (vs, total, st3) => .ok (v :: vs, total, st3)

/-- The `MapAccess` entry loop (de.rs) with value seeds: the key is
deserialized on the parent frame itself; the value cursor carries a `Map`
segment with the key scalar's text (the source uses it when UTF-8
decodable; values are modelled post-decoding) or `Unknown` for a non-scalar
key; the loop stops at `MappingEnd` or `Void`. -/
def mapEntries : Nat → (List Char → Option FVal) → Document → EPath →
    DeState → Nat → Except EngineErr (List (Value × Value) × Nat × DeState)
  | 0, _, _, _, _, _ => .error .fuelOut
  | fuel + 1, g, doc, path, st, len =>
    match peekEventMark doc st.pos with
    | .error e => .error e
    | .ok (ev, _) =>
      match ev with
      | .mappingEnd => .ok ([], len, st)
      | .void => .ok ([], len, st)
      | .scalar sc =>
        match deserAny fuel g doc none path st with
        | .error e => .error e
        | .ok (k, st2) =>
          match deserAny fuel g doc none (.mapSeg path sc.value) st2 with
          | .error e => .error e
          | .ok (v, st3) =>
            match mapEntries fuel g doc path st3 (len + 1) with
            | .error e => .error e
            | .ok (rest, total, st4) => .ok ((k, v) :: rest, total, st4)
      | _ =>
        match deserAny fuel g doc none path st with
        | .error e => .error e
        | .ok (k, st2) =>
          match deserAny fuel g doc none (.unknownSeg path) st2 with
          | .error e => .error e
          | .ok (v, st3) =>
            match mapEntries fuel g doc path st3 (len + 1) with
            | .error e => .error e
            | .ok (rest, total, st4) => .ok ((k, v) :: rest, total, st4)

end

/-- The per-document entry wiring of `Deserializer::de` (de.rs) for a
ready `Document`, driving the generic value visitor: position 0, jump count
0, remaining depth 128; a captured document error surfaces (as a shared
error) after a successful deserialization. -/
def deDocumentValue (fuel : Nat) (g : List Char → Option FVal)
    (doc : Document) : Except EngineErr Value :=
  match deserAny fuel g doc none .root ⟨0, 0, 128⟩ with
  | .error e => .error e
  | .ok (v, _) =>
    match doc.error with
    | some parse_error => .error (.err (.shared parse_error))
    | none => .ok v

/-- A document whose events contain no alias. -/
def noAlias (doc : Document) : Bool :=
  doc.events.all fun em =>
    match em.1 with
    | .aliasE _ => false
    | _ => true

/-! ## Engine preservation lemmas -/

theorem fixMarkE_ok (r : Except EngineErr (Value × DeState)) (mark : Mark)
    (path : EPath) (x : Value × DeState) :
    fixMarkE r mark path = .ok x ↔ r = .ok x := by
  unfold fixMarkE
  cases r with
  | ok y => simp
  | error e =>
    cases e with
    | err e0 => simp
    | fatal m => simp
    | fuelOut => simp

theorem peek_mem (doc : Document) (pos : Nat) (ev : Event) (mk : Mark)
    (h : peekEventMark doc pos = .ok (ev, mk)) : (ev, mk) ∈ doc.events := by
  unfold peekEventMark at h
  cases hg : doc.events[pos]? with
  | none =>
    rw [hg] at h
    exact Except.noConfusion h
  | some em =>
    rw [hg] at h
    injection h with h
    rw [h] at hg
    exact List.getElem?_mem hg

theorem noAlias_no_alias_event (doc : Document) (pos : Nat) (id : Nat)
    (mk : Mark) (hp : peekEventMark doc pos = .ok (.aliasE id, mk))
    (hna : noAlias doc = true) : False := by
  have hm := peek_mem doc pos _ _ hp
  unfold noAlias at hna
  rw [List.all_eq_true] at hna
  have := hna _ hm
  simp at this

theorem jumpM_ok (doc : Document) (st : DeState) (id : Nat)
    (child : DeState) (h : jumpM doc st id = .ok child) :
    child.jumpcount = st.jumpcount + 1 ∧
      child.remaining_depth = st.remaining_depth := by
  unfold jumpM at h
  by_cases hc : st.jumpcount + 1 > doc.events.length * 100
  · rw [if_pos hc] at h
    exact Except.noConfusion h
  · rw [if_neg hc] at h
    cases hl : lookupA doc.anchor_event_map id with
    | none =>
      rw [hl] at h
      exact Except.noConfusion h
    | some found =>
      rw [hl] at h
      injection h with h
      rw [← h]
      exact ⟨rfl, rfl⟩

theorem ignoreAny_preserves : ∀ (fuel : Nat) (doc : Document)
    (stack : List Bool) (st st1 : DeState),
    ignoreAny fuel doc stack st = .ok st1 →
    st1.remaining_depth = st.remaining_depth ∧
      st1.jumpcount = st.jumpcount := by
  intro fuel
  induction fuel with
  | zero =>
    intro doc stack st st1 h
    exact absurd h (by simp [ignoreAny])
  | succ fuel ih =>
    intro doc stack st st1 h
    rw [ignoreAny] at h
    repeat' split at h
    all_goals first
      | exact Except.noConfusion h
      | (injection h with h; rw [← h]; exact ⟨rfl, rfl⟩)
      | (have hres := ih _ _ _ _ h; exact hres)

theorem seqDrain_preserves : ∀ (fuel : Nat) (doc : Document)
    (st : DeState) (len : Nat) (r : Nat × DeState),
    seqDrain fuel doc st len = .ok r →
    r.2.remaining_depth = st.remaining_depth ∧
      r.2.jumpcount = st.jumpcount := by
  intro fuel
  induction fuel with
  | zero =>
    intro doc st len r h
    exact absurd h (by simp [seqDrain])
  | succ fuel ih =>
    intro doc st len r h
    rw [seqDrain] at h
    split at h
    · exact Except.noConfusion h
    · split at h
      · injection h with h
        rw [← h]
        exact ⟨rfl, rfl⟩
      · injection h with h
        rw [← h]
        exact ⟨rfl, rfl⟩
      · split at h
        · exact Except.noConfusion h
        · rename_i st2 hig
          have h1 := ignoreAny_preserves _ _ _ _ _ hig
          have h2 := ih _ _ _ _ h
          exact ⟨h2.1.trans h1.1, h2.2.trans h1.2⟩

theorem mapDrain_preserves : ∀ (fuel : Nat) (doc : Document)
    (st : DeState) (len : Nat) (r : Nat × DeState),
    mapDrain fuel doc st len = .ok r →
    r.2.remaining_depth = st.remaining_depth ∧
      r.2.jumpcount = st.jumpcount := by
  intro fuel
  induction fuel with
  | zero =>
    intro doc st len r h
    exact absurd h (by simp [mapDrain])
  | succ fuel ih =>
    intro doc st len r h
    rw [mapDrain] at h
    split at h
    · exact Except.noConfusion h
    · split at h
      · injection h with h
        rw [← h]
        exact ⟨rfl, rfl⟩
      · injection h with h
        rw [← h]
        exact ⟨rfl, rfl⟩
      · split at h
        · exact Except.noConfusion h
        · rename_i st2 hig
          have h1 := ignoreAny_preserves _ _ _ _ _ hig
          split at h
          · exact Except.noConfusion h
          · rename_i st3 hig2
            have h2 := ignoreAny_preserves _ _ _ _ _ hig2
            have h3 := ih _ _ _ _ h
            exact ⟨(h3.1.trans h2.1).trans h1.1,
              (h3.2.trans h2.2).trans h1.2⟩

theorem endSequenceM_preserves (fuel : Nat) (doc : Document)
    (st : DeState) (len : Nat) (st3 : DeState)
    (h : endSequenceM fuel doc st len = .ok st3) :
    st3.remaining_depth = st.remaining_depth ∧
      st3.jumpcount = st.jumpcount := by
  unfold endSequenceM at h
  split at h
  · exact Except.noConfusion h
  · rename_i total st2 hdr
    have h1 := seqDrain_preserves _ _ _ _ _ hdr
    split at h
    · exact Except.noConfusion h
    · split at h
      · split at h
        · injection h with h
          rw [← h]
          exact ⟨h1.1, h1.2⟩
        · exact Except.noConfusion h
      · split at h
        · injection h with h
          rw [← h]
          exact ⟨h1.1, h1.2⟩
        · exact Except.noConfusion h
      · exact Except.noConfusion h

theorem endMappingM_preserves (fuel : Nat) (doc : Document)
    (st : DeState) (len : Nat) (st3 : DeState)
    (h : endMappingM fuel doc st len = .ok st3) :
    st3.remaining_depth = st.remaining_depth ∧
      st3.jumpcount = st.jumpcount := by
  unfold endMappingM at h
  split at h
  · exact Except.noConfusion h
  · rename_i total st2 hdr
    have h1 := mapDrain_preserves _ _ _ _ _ hdr
    split at h
    · exact Except.noConfusion h
    · split at h
      · split at h
        · injection h with h
          rw [← h]
          exact ⟨h1.1, h1.2⟩
        · exact Except.noConfusion h
      · split at h
        · injection h with h
          rw [← h]
          exact ⟨h1.1, h1.2⟩
        · exact Except.noConfusion h
      · exact Except.noConfusion h

/-- The central engine invariant, by mutual induction over the fuel: every
successful engine run restores `remaining_depth` to its entry value (the
`recursion_check` save/restore discipline), and on a document without
aliases the jump counter is never advanced. -/
theorem engine_preserves : ∀ fuel : Nat,
    (∀ (g : List Char → Option FVal) (doc : Document)
      (ce : Option (List Char)) (path : EPath) (st : DeState)
      (v : Value) (st1 : DeState),
      deserAny fuel g doc ce path st = .ok (v, st1) →
      st1.remaining_depth = st.remaining_depth ∧
        (noAlias doc = true → st1.jumpcount = st.jumpcount)) ∧
    (∀ (g : List Char → Option FVal) (doc : Document) (path : EPath)
      (st : DeState) (len : Nat) (r : List Value × Nat × DeState),
      seqItems fuel g doc path st len = .ok r →
      r.2.2.remaining_depth = st.remaining_depth ∧
        (noAlias doc = true → r.2.2.jumpcount = st.jumpcount)) ∧
    (∀ (g : List Char → Option FVal) (doc : Document) (path : EPath)
      (st : DeState) (len : Nat)
      (r : List (Value × Value) × Nat × DeState),
      mapEntries fuel g doc path st len = .ok r →
      r.2.2.remaining_depth = st.remaining_depth ∧
        (noAlias doc = true → r.2.2.jumpcount = st.jumpcount)) := by
  intro fuel
  induction fuel with
  | zero =>
    refine ⟨?_, ?_, ?_⟩
    · intro g doc ce path st v st1 h
      exact absurd h (by simp [deserAny])
    · intro g doc path st len r h
      exact absurd h (by simp [seqItems])
    · intro g doc path st len r h
      exact absurd h (by simp [mapEntries])
  | succ fuel ih =>
    obtain ⟨ihA, ihS, ihM⟩ := ih
    refine ⟨?_, ?_, ?_⟩
    · intro g doc ce path st v st1 h
      rw [deserAny] at h
      split at h
      · exact Except.noConfusion h
      · rename_i next mark hpk
        dsimp only at h
        rw [fixMarkE_ok] at h
        split at h
        · rename_i id
          split at h
          · exact Except.noConfusion h
          · rename_i child hj
            split at h
            · exact Except.noConfusion h
            · rename_i v0 stc hda
              injection h with h
              injection h with h1 h2
              rw [← h2]
              refine ⟨rfl, fun hna => ?_⟩
              exact (noAlias_no_alias_event doc st.pos id mark hpk
                hna).elim
        · rename_i sc
          split at h
          · rename_i tag htag
            split at h
            · exact Except.noConfusion h
            · rename_i v0 st2 hda
              injection h with h
              injection h with h1 h2
              rw [← h2]
              have hres := ihA g doc (some tag) path _ _ _ hda
              exact ⟨hres.1, fun hna => hres.2 hna⟩
          · split at h
            · rename_i v0 hvs
              injection h with h
              injection h with h1 h2
              rw [← h2]
              exact ⟨rfl, fun _ => rfl⟩
            · exact Except.noConfusion h
        · rename_i anchor tag
          split at h
          · rename_i t ht
            split at h
            · exact Except.noConfusion h
            · rename_i v0 st2 hda
              injection h with h
              injection h with h1 h2
              rw [← h2]
              have hres := ihA g doc (some t) path _ _ _ hda
              exact ⟨hres.1, fun hna => hres.2 hna⟩
          · split at h
            · exact Except.noConfusion h
            · rename_i d hd
              split at h
              · exact Except.noConfusion h
              · rename_i items len st2 hsi
                split at h
                · exact Except.noConfusion h
                · rename_i st3 hes
                  injection h with h
                  injection h with h1 h2
                  rw [← h2]
                  have h1s := ihS g doc path _ _ _ hsi
                  have h2s := endSequenceM_preserves fuel doc _ len st3
                    hes
                  refine ⟨h2s.1, fun hna => ?_⟩
                  exact h2s.2.trans (h1s.2 hna)
        · rename_i anchor tag
          split at h
          · rename_i t ht
            split at h
            · exact Except.noConfusion h
            · rename_i v0 st2 hda
              injection h with h
              injection h with h1 h2
              rw [← h2]
              have hres := ihA g doc (some t) path _ _ _ hda
              exact ⟨hres.1, fun hna => hres.2 hna⟩
          · split at h
            · exact Except.noConfusion h
            · rename_i d hd
              split at h
              · exact Except.noConfusion h
              · rename_i entries len st2 hme
                split at h
                · exact Except.noConfusion h
                · rename_i st3 hem
                  injection h with h
                  injection h with h1 h2
                  rw [← h2]
                  have h1m := ihM g doc path _ _ _ hme
                  have h2m := endMappingM_preserves fuel doc _ len st3
                    hem
                  refine ⟨h2m.1, fun hna => ?_⟩
                  exact h2m.2.trans (h1m.2 hna)
        · exact Except.noConfusion h
        · exact Except.noConfusion h
        · injection h with h
          injection h with h1 h2
          rw [← h2]
          exact ⟨rfl, fun _ => rfl⟩
    · intro g doc path st len r h
      rw [seqItems] at h
      split at h
      · exact Except.noConfusion h
      · split at h
        · injection h with h
          rw [← h]
          exact ⟨rfl, fun _ => rfl⟩
        · injection h with h
          rw [← h]
          exact ⟨rfl, fun _ => rfl⟩
        · split at h
          · exact Except.noConfusion h
          · rename_i v0 st2 hda
            split at h
            · exact Except.noConfusion h
            · rename_i vs total st3 hsi
              injection h with h
              rw [← h]
              have h1 := ihA g doc none _ _ _ _ hda
              have h2 := ihS g doc path _ _ _ hsi
              exact ⟨h2.1.trans h1.1,
                fun hna => (h2.2 hna).trans (h1.2 hna)⟩
    · intro g doc path st len r h
      rw [mapEntries] at h
      split at h
      · exact Except.noConfusion h
      · split at h
        · injection h with h
          rw [← h]
          exact ⟨rfl, fun _ => rfl⟩
        · injection h with h
          rw [← h]
          exact ⟨rfl, fun _ => rfl⟩
        · rename_i sc
          split at h
          · exact Except.noConfusion h
          · rename_i k st2 hk
            split at h
            · exact Except.noConfusion h
            · rename_i v0 st3 hv
              split at h
              · exact Except.noConfusion h
              · rename_i rest total st4 hme
                injection h with h
                rw [← h]
                have h1 := ihA g doc none _ _ _ _ hk
                have h2 := ihA g doc none _ _ _ _ hv
                have h3 := ihM g doc path _ _ _ hme
                exact ⟨(h3.1.trans h2.1).trans h1.1,
                  fun hna =>
                    ((h3.2 hna).trans (h2.2 hna)).trans (h1.2 hna)⟩
        · split at h
          · exact Except.noConfusion h
          · rename_i k st2 hk
            split at h
            · exact Except.noConfusion h
            · rename_i v0 st3 hv
              split at h
              · exact Except.noConfusion h
              · rename_i rest total st4 hme
                injection h with h
                rw [← h]
                have h1 := ihA g doc none _ _ _ _ hk
                have h2 := ihA g doc none _ _ _ _ hv
                have h3 := ihM g doc path _ _ _ hme
                exact ⟨(h3.1.trans h2.1).trans h1.1,
                  fun hna =>
                    ((h3.2 hna).trans (h2.2 hna)).trans (h1.2 hna)⟩

/-! ## Concrete documents and the C3, C4, C6 claims -/

/-- A decimal parser stand-in that always fails (any value of the external
parameter works for the concrete documents below, which never reach it). -/
def gNone : List Char → Option FVal := fun _ => none

/-- The zero mark. -/
def mark0 : Mark := ⟨0, 0, 0⟩

/-- A document holding only the Void sentinel (the empty input). -/
def voidDoc : Document := ⟨[(Event.void, mark0)], none, []⟩

/-- A document of `n` nested single-element sequences around one scalar. -/
def nestedSeqDoc (n : Nat) : Document :=
  ⟨List.replicate n (Event.sequenceStart none none, mark0) ++
    [(Event.scalar ⟨none, none, "x".toList, .plain, none⟩, mark0)] ++
    List.replicate n (Event.sequenceEnd, mark0), none, []⟩

/-- Whether an engine run succeeded. -/
def resultIsOk : Except EngineErr Value → Bool
  | .ok _ => true
  | .error _ => false

/-- An anchored scalar followed by an alias to it (`- &a x` then `*a`). -/
def aliasTargetDoc : Document :=
  ⟨[(Event.scalar ⟨none, none, "x".toList, .plain, none⟩, mark0),
    (Event.aliasE 0, mark0)], none, [(0, 0)]⟩

/-- C3 counterexample. The claim says `remaining_depth` is decremented on
every alias jump; but `jump` copies the caller's `remaining_depth` into the
child cursor unchanged: jumping from a state with depth 5 yields a child
cursor with depth 5, not 4 (only the jump counter advances). -/
theorem claim_C3_cex :
    jumpM aliasTargetDoc ⟨2, 0, 5⟩ 0 = .ok ⟨0, 1, 5⟩ ∧
    (⟨0, 1, 5⟩ : DeState).remaining_depth ≠
      (⟨2, 0, 5⟩ : DeState).remaining_depth - 1 := by
  exact ⟨rfl, by decide⟩

set_option maxRecDepth 40000 in
/-- C3 (amended). The recursion budget starts at the fixed ceiling 128 and
is decremented on entry into each sequence or mapping (and newtype
interior) and restored on return, so every successful run hands back the
entry depth and siblings see the full budget; sequence-element,
mapping-value and alias-jump sub-cursors inherit the current budget
unchanged; a sequence beginning where the budget is exhausted fails with
`RecursionLimitExceeded` carrying the mark where the limit was hit; and
concretely a document of 129 nested sequences fails with the limit error
while 128 levels succeed. -/
theorem claim_C3 :
    (∀ (fuel : Nat) (g : List Char → Option FVal) (doc : Document)
      (ce : Option (List Char)) (path : EPath) (st : DeState)
      (v : Value) (st1 : DeState),
      deserAny fuel g doc ce path st = .ok (v, st1) →
      st1.remaining_depth = st.remaining_depth) ∧
    (∀ (fuel : Nat) (g : List Char → Option FVal) (doc : Document)
      (path : EPath) (st : DeState) (anchor : Option (List Char))
      (mark : Mark),
      peekEventMark doc st.pos = .ok (.sequenceStart anchor none, mark) →
      st.remaining_depth = 0 →
      deserAny (fuel + 1) g doc none path st =
        .error (.err (.recursionLimitExceeded mark))) ∧
    (deDocumentValue 2000 gNone (nestedSeqDoc 129) =
      .error (.err (.recursionLimitExceeded mark0))) ∧
    (resultIsOk (deDocumentValue 2000 gNone (nestedSeqDoc 128)) = true) := by
  refine ⟨?_, ?_, ?_, ?_⟩
  · intro fuel g doc ce path st v st1 h
    exact ((engine_preserves fuel).1 g doc ce path st v st1 h).1
  · intro fuel g doc path st anchor mark hpk hd
    rw [deserAny, hpk]
    dsimp only
    rw [hd]
    rfl
  · rfl
  · rfl

/-- C3 witness: a successful run restores the entry depth. -/
theorem claim_C3_witness :
    (⟨1, 0, 7⟩ : DeState).remaining_depth =
      (⟨0, 0, 7⟩ : DeState).remaining_depth :=
  claim_C3.1 1 gNone voidDoc none .root ⟨0, 0, 7⟩ .null ⟨1, 0, 7⟩ rfl

/-- C4. Every alias jump increments the document-global jump counter by
one, and the jump fails with `RepetitionLimitExceeded` exactly when the
incremented counter exceeds one hundred times the buffer length; and for a
document with no alias events a successful run leaves the jump counter
unchanged (at 0 when it started at 0) — alias-jump logic is never invoked,
since `jump` is the only operation that advances the counter. -/
theorem claim_C4 :
    (∀ (doc : Document) (st : DeState) (id : Nat),
      jumpM doc st id = .error (.err .repetitionLimitExceeded) ↔
        st.jumpcount + 1 > doc.events.length * 100) ∧
    (∀ (doc : Document) (st : DeState) (id : Nat) (child : DeState),
      jumpM doc st id = .ok child →
      child.jumpcount = st.jumpcount + 1) ∧
    (∀ (fuel : Nat) (g : List Char → Option FVal) (doc : Document)
      (ce : Option (List Char)) (path : EPath) (st : DeState)
      (v : Value) (st1 : DeState), noAlias doc = true →
      deserAny fuel g doc ce path st = .ok (v, st1) →
      st1.jumpcount = st.jumpcount) := by
  refine ⟨?_, ?_, ?_⟩
  · intro doc st id
    constructor
    · intro h
      by_contra hc
      unfold jumpM at h
      rw [if_neg hc] at h
      cases hl : lookupA doc.anchor_event_map id with
      | none =>
        rw [hl] at h
        injection h with h
        exact EngineErr.noConfusion h
      | some found =>
        rw [hl] at h
        exact Except.noConfusion h
    · intro h
      unfold jumpM
      rw [if_pos h]
  · intro doc st id child h
    exact (jumpM_ok doc st id child h).1
  · intro fuel g doc ce path st v st1 hna h
    exact ((engine_preserves fuel).1 g doc ce path st v st1 h).2 hna

/-- C4 witness: the jump into `aliasTargetDoc` increments the counter to 1,
and the alias-free `voidDoc` run leaves the counter at 0. -/
theorem claim_C4_witness :
    (⟨0, 1, 5⟩ : DeState).jumpcount = (⟨2, 0, 5⟩ : DeState).jumpcount + 1 ∧
    (⟨1, 0, 128⟩ : DeState).jumpcount = (⟨0, 0, 128⟩ : DeState).jumpcount :=
  ⟨claim_C4.2.1 aliasTargetDoc ⟨2, 0, 5⟩ 0 ⟨0, 1, 5⟩ rfl,
    claim_C4.2.2 1 gNone voidDoc none .root ⟨0, 0, 128⟩ .null ⟨1, 0, 128⟩
      rfl rfl⟩

/-- A non-plain (double-quoted) scalar carrying the explicit core-schema
bool tag. -/
def boolTaggedDoc : Document :=
  ⟨[(Event.scalar ⟨none, some tagBool, "true".toList, .doubleQuoted,
    none⟩, mark0)], none, []⟩

/-- A non-plain (double-quoted) scalar carrying the local tag `!V`. -/
def bangTaggedDoc : Document :=
  ⟨[(Event.scalar ⟨none, some ("!V".toList), "x".toList, .doubleQuoted,
    none⟩, mark0)], none, []⟩

/-- C6 counterexample. Under `deserialize_any` a double-quoted scalar with
the explicit core-schema bool tag is parsed as a bool (not taken literally
as a string), and a double-quoted scalar with a `!` tag is used as an
enum-tag source — refuting both halves of the claim for non-plain scalars
that carry explicit tags. -/
theorem claim_C6_cex :
    deserAny 10 gNone boolTaggedDoc none .root ⟨0, 0, 128⟩ =
      .ok (.bool true, ⟨1, 0, 128⟩) ∧
    deserAny 10 gNone bangTaggedDoc none .root ⟨0, 0, 128⟩ =
      .ok (.tagged ("V".toList) (.str ("x".toList)), ⟨1, 0, 128⟩) :=
  ⟨rfl, rfl⟩

theorem visit_scalar_nonplain (g : List Char → Option FVal) (sc : Scalar)
    (ta : Bool) (hs : sc.style ≠ .plain)
    (ht : sc.tag = none ∨ ta = true) :
    visit_scalar g sc ta = .ok (.str sc.value) := by
  unfold visit_scalar
  rcases ht with ht | ht
  · rw [ht]
    dsimp only
    rw [if_neg hs]
    rw [strTail_eq]
  · cases htag : sc.tag with
    | none =>
      rw [ht]
      dsimp only
      rw [if_neg hs, strTail_eq]
    | some t =>
      rw [ht]
      dsimp only
      rw [if_neg hs, strTail_eq]

/-- C6 (amended). A non-plain scalar that carries no tag, or occurs inside
an enum-tag context, is never implicitly retyped under `deserialize_any`:
its text is delivered literally as a string and it is not dispatched as an
enum tag. (As the counterexample shows, a non-plain scalar with an explicit
core-schema tag is explicitly retyped per the tag, and one with a `!` tag
is eligible as an enum-tag source.) -/
theorem claim_C6 :
    ∀ (fuel : Nat) (g : List Char → Option FVal) (doc : Document)
      (ce : Option (List Char)) (path : EPath) (st : DeState)
      (sc : Scalar) (mark : Mark),
      peekEventMark doc st.pos = .ok (.scalar sc, mark) →
      sc.style ≠ .plain →
      (sc.tag = none ∨ ce ≠ none) →
      deserAny (fuel + 1) g doc ce path st =
        .ok (.str sc.value,
          ⟨st.pos + 1, st.jumpcount, st.remaining_depth⟩) := by
  intro fuel g doc ce path st sc mark hpk hs htag
  have hta : enum_tag sc.tag ce.isSome = none := by
    rcases htag with h | h
    · cases ce <;> simp [enum_tag, h, parse_tag]
    · cases ce with
      | none => exact absurd rfl h
      | some t => simp [enum_tag]
  have hvs : visit_scalar g sc ce.isSome = .ok (.str sc.value) := by
    apply visit_scalar_nonplain g sc ce.isSome hs
    rcases htag with h | h
    · exact Or.inl h
    · cases ce with
      | none => exact absurd rfl h
      | some t => exact Or.inr rfl
  rw [deserAny, hpk]
  dsimp only
  rw [hta, hvs]
  rfl

/-- C6 witness: a double-quoted untagged scalar with text `null` stays the
string `null`. -/
theorem claim_C6_witness :
    deserAny 1 gNone
      ⟨[(Event.scalar ⟨none, none, "null".toList, .doubleQuoted, none⟩,
        mark0)], none, []⟩ none .root ⟨0, 0, 128⟩ =
      .ok (.str ("null".toList), ⟨1, 0, 128⟩) :=
  claim_C6 0 gNone _ none .root ⟨0, 0, 128⟩
    ⟨none, none, "null".toList, .doubleQuoted, none⟩ mark0 rfl
    (by decide) (Or.inl rfl)

/-! ## The document loader and the entry points (loader.rs, de.rs) -/

/-- A tokenizer-level event (libyaml parser `Event`), the input interface of
the loader. The tokenizer itself is an external collaborator; the loader is
modelled over its output stream. -/
inductive YEvent
  | streamStart
  | streamEnd
  | documentStart
  | documentEnd
  | aliasY (anchorName : List Char)
  | scalarY (s : Scalar)
  | sequenceStartY (anchor : Option (List Char)) (tag : Option (List Char))
  | sequenceEndY
  | mappingStartY (anchor : Option (List Char)) (tag : Option (List Char))
  | mappingEndY

/-- The captured terminal error when the tokenizer fails (its contents come
from the external tokenizer and are opaque to the loader). -/
def modelParseError : ErrorImpl :=
  .libyaml ⟨.yamlParseError, "modelled tokenizer failure".toList, 0,
    ⟨0, 0, 0⟩, none, ⟨0, 0, 0⟩⟩

/-- The event loop of `Loader::next_document` (loader.rs), recursing over
the remaining tokenizer stream with the per-document anchor name table, the
first-document flag, and the document under construction. Returns the
produced document (if any) and the remaining parser stream (`none` models
`self.parser = None`). Stream exhaustion without a `StreamEnd` models a
tokenizer error: the partial document is returned with the error captured.
On `StreamEnd` the first call returns the buffered document (with a
synthetic `Void` if empty) and later calls signal no more documents; on
`DocumentEnd` the document is returned with the rest of the stream kept; an
unknown alias fails the document immediately with `UnknownAnchor`; an
anchored node allocates the next id (the table length), records id to
current buffer index, and strips the anchor before storing. -/
def loadLoop : List (YEvent × Mark) → List (List Char × Nat) → Bool →
    List (Event × Mark) → List (Nat × Nat) →
    Option Document × Option (List (YEvent × Mark))
  | [], _, _, events, aliases =>
    (some ⟨events, some modelParseError, aliases⟩, some [])
  | (ev, mark) :: rest, anchors, first, events, aliases =>
    match ev with
    | .streamStart => loadLoop rest anchors first events aliases
    | .streamEnd =>
      if first then
        (some ⟨(if events.isEmpty then [(Event.void, mark)] else events),
          none, aliases⟩, none)
      else (none, none)
    | .documentStart => loadLoop rest anchors first events aliases
    | .documentEnd => (some ⟨events, none, aliases⟩, some rest)
    | .aliasY name =>
      match lookupA anchors name with
      | some id =>
        loadLoop rest anchors first
          (events ++ [(Event.aliasE id, mark)]) aliases
      | none =>
        (some ⟨events, some (.unknownAnchor mark), aliases⟩, some rest)
    | .scalarY sc =>
      match sc.anchor with
      | some a =>
        loadLoop rest (insertA anchors a anchors.length) first
          (events ++ [(Event.scalar ⟨none, sc.tag, sc.value, sc.style,
            sc.repr⟩, mark)])
          (insertA aliases anchors.length events.length)
      | none =>
        loadLoop rest anchors first
          (events ++ [(Event.scalar sc, mark)]) aliases
    | .sequenceStartY anchor tag =>
      match anchor with
      | some a =>
        loadLoop rest (insertA anchors a anchors.length) first
          (events ++ [(Event.sequenceStart none tag, mark)])
          (insertA aliases anchors.length events.length)
      | none =>
        loadLoop rest anchors first
          (events ++ [(Event.sequenceStart none tag, mark)]) aliases
    | .sequenceEndY =>
      loadLoop rest anchors first
        (events ++ [(Event.sequenceEnd, mark)]) aliases
    | .mappingStartY anchor tag =>
      match anchor with
      | some a =>
        loadLoop rest (insertA anchors a anchors.length) first
          (events ++ [(Event.mappingStart none tag, mark)])
          (insertA aliases anchors.length events.length)
      | none =>
        loadLoop rest anchors first
          (events ++ [(Event.mappingStart none tag, mark)]) aliases
    | .mappingEndY =>
      loadLoop rest anchors first
        (events ++ [(Event.mappingEnd, mark)]) aliases

/-- The loader (loader.rs `Loader`): the remaining tokenizer stream (`none`
once closed) and the count of documents handed out. -/
structure Loader where
  parserQ : Option (List (YEvent × Mark))
  document_count : Nat

/-- `Loader::next_document` (loader.rs). -/
def nextDocument (l : Loader) : Option Document × Loader :=
  match l.parserQ with
  | none => (none, l)
  | some stream =>
    match loadLoop stream [] (l.document_count == 0) [] [] with
    | (docOpt, q) => (docOpt, ⟨q, l.document_count + 1⟩)

/-- The deserializer input state (de.rs `Progress`): `strIn` covers the
borrowed text, borrowed bytes and successfully-read stream cases (all reach
the loader as one tokenized input); `fail` covers a stored shared failure
(`Progress::Fail`, also produced by an I/O failure when reading). -/
inductive Progress
  | strIn (tokens : List (YEvent × Mark))
  | iterable (l : Loader)
  | document (d : Document)
  | fail (e : ErrorImpl)

/-- `Deserializer::de` (de.rs), generic over the per-document deserialization
`f`: an iterable progress fails with `MoreThanOneDocument`; a ready document
runs `f` then surfaces a captured document error; otherwise the loader is
created, a first document of `none` is `EndOfStream`, and after `f` succeeds
(and no document error was captured) a second document, if present, fails
with `MoreThanOneDocument`. -/
def deserializerDe {α : Type} (p : Progress)
    (f : Document → Except ErrorImpl α) : Except ErrorImpl α :=
  match p with
  | .iterable _ => .error .moreThanOneDocument
  | .document doc =>
    match f doc with
    | .error e => .error e
    | .ok t =>
      match doc.error with
      | some pe => .error (.shared pe)
      | none => .ok t
  | .fail e => .error (.shared e)
  | .strIn tokens =>
    match nextDocument ⟨some tokens, 0⟩ with
    | (none, _) => .error .endOfStream
    | (some doc, l2) =>
      match f doc with
      | .error e => .error e
      | .ok t =>
        match doc.error with
        | some pe => .error (.shared pe)
        | none =>
          match nextDocument l2 with
          | (none, _) => .ok t
          | (some _, _) => .error .moreThanOneDocument

/-- `Iterator::next for Deserializer` (de.rs): a raw input becomes an
iterable loader and yields one sub-deserializer per document, each wrapping
its own `Document`; a stored failure re-yields the same cached failure; a
single-document deserializer yields nothing. -/
def iterNext (p : Progress) : Option Progress × Progress :=
  match p with
  | .iterable l =>
    match nextDocument l with
    | (some doc, l2) => (some (.document doc), .iterable l2)
    | (none, l2) => (none, .iterable l2)
  | .document d => (none, .document d)
  | .fail e => (some (.fail e), .fail e)
  | .strIn tokens =>
    match nextDocument ⟨some tokens, 0⟩ with
    | (some doc, l2) => (some (.document doc), .iterable l2)
    | (none, l2) => (none, .iterable l2)

/-- `invalid_type` (de.rs): the error produced when an event cannot satisfy
a requested shape; for the `Void` event it is `EndOfStream`. (The message
texts of the scalar and collection cases are serde-rendered and not
load-bearing here.) -/
def invalid_type_err : Event → EngineErr
  | .aliasE _ => .fatal ("invalid_type reached an alias".toList)
  | .scalar sc => .err (.message ("invalid type: ".toList ++ sc.value) none)
  | .sequenceStart _ _ =>
    .err (.message ("invalid type: sequence".toList) none)
  | .mappingStart _ _ => .err (.message ("invalid type: map".toList) none)
  | .sequenceEnd => .fatal ("unexpected end of sequence".toList)
  | .mappingEnd => .fatal ("unexpected end of mapping".toList)
  | .void => .err .endOfStream

/-- The tokenized form of a two-document stream such as `---a\n---b`. -/
def twoDocStream : List (YEvent × Mark) :=
  [(.streamStart, mark0), (.documentStart, mark0),
   (.scalarY ⟨none, none, "a".toList, .plain, none⟩, mark0),
   (.documentEnd, mark0), (.documentStart, mark0),
   (.scalarY ⟨none, none, "b".toList, .plain, none⟩, mark0),
   (.documentEnd, mark0), (.streamEnd, mark0)]

/-- The tokenized form of a one-document stream such as `a: 1` (collapsed
here to one scalar; the document shape is immaterial). -/
def oneDocStream : List (YEvent × Mark) :=
  [(.streamStart, mark0), (.documentStart, mark0),
   (.scalarY ⟨none, none, "a".toList, .plain, none⟩, mark0),
   (.documentEnd, mark0), (.streamEnd, mark0)]

/-- The tokenized form of the empty input. -/
def emptyStream : List (YEvent × Mark) :=
  [(.streamStart, mark0), (.streamEnd, mark0)]

/-- The first document of `twoDocStream`. -/
def docA : Document :=
  ⟨[(Event.scalar ⟨none, none, "a".toList, .plain, none⟩, mark0)],
    none, []⟩

/-- The second document of `twoDocStream`. -/
def docB : Document :=
  ⟨[(Event.scalar ⟨none, none, "b".toList, .plain, none⟩, mark0)],
    none, []⟩

/-- A per-document deserialization that always succeeds. -/
def fBool : Document → Except ErrorImpl Bool := fun _ => .ok true

/-- C5. The single-document entry points parse exactly one document: with
one document (and no captured error) the result is `f`'s result; a second
document yields `MoreThanOneDocument`; a loader with no first document
yields `EndOfStream`; the multi-document iterator instead yields one
independent sub-deserializer per document in order (so the two-document
stream yields two successful sub-deserializers, while the single-document
entry point fails on it); the empty stream loads as the single synthetic
`Void` event, on which a shape that requires a value fails with
`EndOfStream`. -/
theorem claim_C5 :
    (∀ (α : Type) (f : Document → Except ErrorImpl α)
      (tokens : List (YEvent × Mark)) (doc : Document) (l2 : Loader)
      (t : α),
      nextDocument ⟨some tokens, 0⟩ = (some doc, l2) → doc.error = none →
      f doc = .ok t → (nextDocument l2).1 = none →
      deserializerDe (.strIn tokens) f = .ok t) ∧
    (∀ (α : Type) (f : Document → Except ErrorImpl α)
      (tokens : List (YEvent × Mark)) (doc : Document) (l2 : Loader)
      (t : α) (doc2 : Document) (l3 : Loader),
      nextDocument ⟨some tokens, 0⟩ = (some doc, l2) → doc.error = none →
      f doc = .ok t → nextDocument l2 = (some doc2, l3) →
      deserializerDe (.strIn tokens) f = .error .moreThanOneDocument) ∧
    (∀ (α : Type) (f : Document → Except ErrorImpl α)
      (tokens : List (YEvent × Mark)),
      (nextDocument ⟨some tokens, 0⟩).1 = none →
      deserializerDe (.strIn tokens) f = .error .endOfStream) ∧
    (∀ (l : Loader) (doc : Document) (l2 : Loader),
      nextDocument l = (some doc, l2) →
      iterNext (.iterable l) = (some (.document doc), .iterable l2)) ∧
    (∀ (α : Type) (f : Document → Except ErrorImpl α) (doc : Document),
      doc.error = none → deserializerDe (.document doc) f = f doc) ∧
    (deserializerDe (.strIn oneDocStream) fBool = .ok true) ∧
    (deserializerDe (.strIn twoDocStream) fBool =
      .error .moreThanOneDocument) ∧
    (iterNext (.strIn twoDocStream) =
      (some (.document docA), .iterable ⟨some (twoDocStream.drop 4), 1⟩)) ∧
    (iterNext (.iterable ⟨some (twoDocStream.drop 4), 1⟩) =
      (some (.document docB), .iterable ⟨some (twoDocStream.drop 7), 2⟩)) ∧
    (iterNext (.iterable ⟨some (twoDocStream.drop 7), 2⟩) =
      (none, .iterable ⟨none, 3⟩)) ∧
    (deserializerDe (.document docA) fBool = .ok true) ∧
    (deserializerDe (.document docB) fBool = .ok true) ∧
    (nextDocument ⟨some emptyStream, 0⟩ =
      (some ⟨[(Event.void, mark0)], none, []⟩, ⟨none, 1⟩)) ∧
    (invalid_type_err .void = .err .endOfStream) := by
  refine ⟨?_, ?_, ?_, ?_, ?_, rfl, rfl, rfl, rfl, rfl, rfl, rfl, rfl, rfl⟩
  · intro α f tokens doc l2 t h1 he hf h2
    unfold deserializerDe
    dsimp only
    rw [h1]
    dsimp only
    rw [hf, he]
    dsimp only
    cases hq : nextDocument l2 with
    | mk q l3 =>
      rw [hq] at h2
      dsimp only at h2
      rw [h2]
  · intro α f tokens doc l2 t doc2 l3 h1 he hf h2
    unfold deserializerDe
    dsimp only
    rw [h1]
    dsimp only
    rw [hf, he]
    dsimp only
    rw [h2]
  · intro α f tokens h
    unfold deserializerDe
    dsimp only
    cases hq : nextDocument ⟨some tokens, 0⟩ with
    | mk q l2 =>
      rw [hq] at h
      dsimp only at h
      rw [h]
  · intro l doc l2 h
    unfold iterNext
    dsimp only
    rw [h]
  · intro α f doc he
    unfold deserializerDe
    dsimp only
    cases hf : f doc with
    | error e => rfl
    | ok t => rw [he]

/-- C5 witness: the one-document stream deserializes through the
single-document entry point with the result of `f`. -/
theorem claim_C5_witness :
    deserializerDe (.strIn oneDocStream) fBool = .ok true :=
  claim_C5.1 Bool fBool oneDocStream docA
    ⟨some [(.streamEnd, mark0)], 1⟩ true rfl rfl rfl rfl

/-! ## Remaining witnesses -/

/-- C2 witness: the scalar 7 parses as the unsigned 64-bit integer 7 through
the first step of the precedence chain. -/
theorem claim_C2_witness :
    visit_int ("7".toList) = some (.intU64 7) :=
  claim_C2.1 ("7".toList) 7 rfl

/-- C7 witness: a message error with path `k` and 0-based mark line 1
column 2 renders path-first with the 1-based location. -/
theorem claim_C7_witness :
    displayErr (.message ("m".toList) (some ⟨⟨0, 1, 2⟩, "k".toList⟩)) =
      "k: m at line 2 column 3".toList :=
  claim_C7.1 ("m".toList) ⟨⟨0, 1, 2⟩, "k".toList⟩ (by decide)
    (Or.inl (by decide))

/-- C8 witness: with the failing decimal-parser stand-in (matching the
standard parser's rejection of -.nan), .nan parses as the positive NaN. -/
theorem claim_C8_witness :
    parse_f64 gNone (".nan".toList) = some (.nan false) :=
  (claim_C8 gNone rfl).1

/-- C9 witness: a plain null-tagged scalar with text null outside an
enum-tag context decides None. -/
theorem claim_C9_witness :
    deserialize_option_decision false
      (.scalar ⟨none, some tagNull, "null".toList, .plain, none⟩) =
      .noneValue :=
  claim_C9.2.2.1 ⟨none, some tagNull, "null".toList, .plain, none⟩
    rfl rfl rfl

/-- C10 witness: with a decimal parser that overflows 1e999 to positive
infinity, `parse_f64` still returns `none` on it. -/
theorem claim_C10_witness :
    parse_f64 (fun _ => some (FVal.inf false)) ("1e999".toList) = none :=
  (claim_C10.2 (fun _ => some (.inf false)) rfl).1

end SerdeYml
